import Mathlib

/-!
Verification of the orchestration / auto-debug core of the NemoTeam repository
(`src/lib/orchestrator.ts`), via a shallow embedding in Lean 4.

Strings are modelled as Lean `String`s (lists of characters); the ASCII
fragments relevant to the analysed heuristics behave identically to
JavaScript strings.  Numbers parsed from program output by `parseFloat` on
`[0-9.]+` tokens are modelled exactly as decimal rationals (`DecNum`), so all
threshold comparisons are exact where JavaScript uses binary doubles.
Ambient impure inputs (the probed system context, model responses, process
execution results, pip success) are passed as explicit parameters.
-/

set_option maxRecDepth 8000

namespace NemoTeam

/-- The five agent personas (`AgentRole` in `src/types`). -/
inductive AgentRole where
  | architect | developer | reviewer | tester | debugger
deriving DecidableEq, Repr

/-- `AGENTS[role].name` from `src/lib/agents.ts`. -/
def agentName : AgentRole → String
  | .architect => "Nova"
  | .developer => "Axel"
  | .reviewer => "Sage"
  | .tester => "Vera"
  | .debugger => "Dash"

/-- `AGENTS[role].title` from `src/lib/agents.ts`. -/
def agentTitle : AgentRole → String
  | .architect => "Software Architect"
  | .developer => "Senior Developer"
  | .reviewer => "Code Reviewer"
  | .tester => "QA Engineer"
  | .debugger => "Debug Engineer"

/-! ### Basic character/string helpers shared by the regex embeddings -/

/-- JavaScript `\w` (ASCII word character). -/
def isWordChar (c : Char) : Bool := c.isAlphanum || c == '_'

/-- JavaScript `\s`, restricted to the ASCII whitespace characters that occur
in the analysed process output. -/
def isSpaceChar (c : Char) : Bool :=
  c == ' ' || c == '\t' || c == '\n' || c == '\r' ||
  c == Char.ofNat 11 || c == Char.ofNat 12

/-- Character class `[0-9.]`. -/
def isNumChar (c : Char) : Bool := c.isDigit || c == '.'

/-- Bool-valued list containment of `needle` in `hay`
(JavaScript `String.prototype.includes`). -/
def containsL (needle hay : List Char) : Bool :=
  hay.tails.any (fun t => needle.isPrefixOf t)

/-- Case-insensitive containment. -/
def containsCi (needle hay : List Char) : Bool :=
  containsL (needle.map Char.toLower) (hay.map Char.toLower)

/-- String-level containment. -/
def containsS (needle hay : String) : Bool := containsL needle.data hay.data

/-- `containsL` agrees with the mathematical infix relation. -/
theorem containsL_iff_inf {needle hay : List Char} :
    containsL needle hay = true ↔ needle <:+: hay := by
  constructor
  · intro h
    rcases List.any_eq_true.mp h with ⟨t, ht, hpre⟩
    rcases (List.isPrefixOf_iff_prefix).mp hpre with ⟨r, hr⟩
    rcases (List.mem_tails t hay).mp ht with ⟨s, hs⟩
    exact ⟨s, r, by rw [← hs, ← hr]; simp⟩
  · rintro ⟨s, t, rfl⟩
    refine List.any_eq_true.mpr ⟨needle ++ t, ?_, ?_⟩
    · exact (List.mem_tails _ _).mpr ⟨s, by simp⟩
    · exact List.isPrefixOf_iff_prefix.mpr ⟨t, rfl⟩

/-- First `n` characters of a string (JavaScript `.slice(0, n)`). -/
def takeChars (n : Nat) (s : String) : String := String.mk (s.data.take n)

/-- Last `n` elements of a list (JavaScript `.slice(-n)` for `n > 0`). -/
def lastN (n : Nat) (l : List α) : List α := l.drop (l.length - n)

/-- Insertion-order deduplication (iteration order of a JavaScript `Set`
built from a list). -/
def firstDedupAux [DecidableEq α] : List α → List α → List α
  | _, [] => []
  | seen, x :: t =>
    if x ∈ seen then firstDedupAux seen t else x :: firstDedupAux (x :: seen) t

/-- `[...new Set(l)]`. -/
def firstDedup [DecidableEq α] (l : List α) : List α := firstDedupAux [] l

theorem firstDedupAux_length_le [DecidableEq α] (seen l : List α) :
    (firstDedupAux seen l).length ≤ l.length := by
  induction l generalizing seen with
  | nil => simp [firstDedupAux]
  | cons x t ih =>
    simp only [firstDedupAux]
    split
    · exact Nat.le_succ_of_le (ih seen)
    · simpa using Nat.succ_le_succ (ih (x :: seen))

theorem firstDedupAux_length_eq_iff [DecidableEq α] (seen l : List α) :
    (firstDedupAux seen l).length = l.length ↔
      l.Nodup ∧ ∀ x ∈ l, x ∉ seen := by
  induction l generalizing seen with
  | nil => simp [firstDedupAux]
  | cons x t ih =>
    simp only [firstDedupAux]
    split
    · rename_i hx
      constructor
      · intro h
        exact absurd h (by
          have := firstDedupAux_length_le seen t
          simp only [List.length_cons]; omega)
      · rintro ⟨-, hall⟩
        exact absurd hx (hall x (by simp))
    · rename_i hx
      simp only [List.length_cons, Nat.succ.injEq, ih (x :: seen),
        List.nodup_cons, List.mem_cons]
      constructor
      · rintro ⟨hnd, hall⟩
        refine ⟨⟨fun hxt => ?_, hnd⟩, ?_⟩
        · exact (hall x hxt) (by simp)
        · rintro y (rfl | hy)
          · exact hx
          · intro hys
            exact (hall y hy) (by simp [hys])
      · rintro ⟨⟨hxt, hnd⟩, hall⟩
        refine ⟨hnd, fun y hy => ?_⟩
        intro hmem
        rcases hmem with rfl | hys
        · exact hxt hy
        · exact (hall y (Or.inr hy)) hys

theorem firstDedup_length_eq_iff [DecidableEq α] (l : List α) :
    (firstDedup l).length = l.length ↔ l.Nodup := by
  simpa [firstDedup] using firstDedupAux_length_eq_iff ([] : List α) l

/-! ### Error tracker (`getErrorSignature`, `getConsecutiveRepeatCount`,
`isErrorThrashing` — orchestrator.ts lines 1089–1129) -/

/-- One entry of the error log. -/
structure ErrorRecord where
  sig : String
  full : String
  attempt : Nat
deriving DecidableEq, Repr

/-- Split a character list at newline characters (`String.prototype.split("\n")`). -/
def splitNl : List Char → List (List Char)
  | [] => [[]]
  | c :: t =>
    match splitNl t with
    | [] => [[]]
    | h :: r => if c == '\n' then [] :: h :: r else (c :: h) :: r

/-- ASCII whitespace trim (`String.prototype.trim`). -/
def trimAscii (l : List Char) : List Char :=
  ((l.dropWhile isSpaceChar).reverse.dropWhile isSpaceChar).reverse

/-- `error.split("\n").map(l => l.trim()).filter(Boolean)`. -/
def trimmedLines (error : String) : List (List Char) :=
  ((splitNl error.data).map trimAscii).filter (fun l => !l.isEmpty)

/-- Test of `/Error:|Exception:|FAILED|error occurred/i` on one line. -/
def errorLikeLine (l : List Char) : Bool :=
  let low := l.map Char.toLower
  containsL "error:".data low || containsL "exception:".data low ||
  containsL "failed".data low || containsL "error occurred".data low

/-- `getErrorSignature` — canonicalizes raw error text to a short signature:
the last trimmed line matching the error-like pattern, else the last line,
truncated to 200 characters; `"unknown error"` for blank input. -/
def getErrorSignature (error : String) : String :=
  let lines := trimmedLines error
  match lines.reverse.find? errorLikeLine with
  | some l => String.mk (l.take 200)
  | none =>
    match lines.reverse with
    | l :: _ => String.mk (l.take 200)
    | [] => "unknown error"

/-- Helper: count equal signatures from the front of a (reversed) log. -/
def consecFromEnd (sig : String) : List ErrorRecord → Nat
  | [] => 0
  | r :: t => if r.sig = sig then 1 + consecFromEnd sig t else 0

/-- `getConsecutiveRepeatCount` — walks backward from the end of the log
counting entries whose signature equals `sig`, stopping at the first
mismatch. -/
def getConsecutiveRepeatCount (log : List ErrorRecord) (sig : String) : Nat :=
  consecFromEnd sig log.reverse

/-- `isErrorThrashing` — true iff the log has ≥ 5 entries and the signatures
of the last 5 are pairwise distinct (`new Set(last5).size === last5.length`). -/
def isErrorThrashing (log : List ErrorRecord) : Bool :=
  if log.length < 5 then false
  else
    let last5 := (lastN 5 log).map (·.sig)
    (firstDedup last5).length == last5.length

/-! ### Escalation policy (orchestrator.ts lines 11–16 and 1131–1143) -/

def TIER2_THRESHOLD : Nat := 5
def REARCHITECT_THRESHOLD : Nat := 15
def REARCHITECT_INTERVAL : Nat := 10

/-- `shouldReArchitect` — thrashing forces re-architecture immediately;
otherwise it fires at the threshold and at the fixed interval past it. -/
def shouldReArchitect (log : List ErrorRecord) (attempt : Nat) : Bool :=
  if isErrorThrashing log then true
  else if attempt < REARCHITECT_THRESHOLD then false
  else (attempt - REARCHITECT_THRESHOLD) % REARCHITECT_INTERVAL == 0

/-- `getEscalationTier` — 3 on re-architecture, else 2 above the tier-2
threshold, else 1. -/
def getEscalationTier (log : List ErrorRecord) (attempt : Nat) : Nat :=
  if shouldReArchitect log attempt then 3
  else if attempt > TIER2_THRESHOLD then 2
  else 1

/-- Every escalation tier is at most 3. -/
theorem getEscalationTier_le_three (log : List ErrorRecord) (a : Nat) :
    getEscalationTier log a ≤ 3 := by
  unfold getEscalationTier
  split
  · omega
  · split <;> omega

/-- With thrashing off, `shouldReArchitect` is purely arithmetic in the
attempt number. -/
theorem shouldReArchitect_of_not_thrashing (log : List ErrorRecord)
    (h : isErrorThrashing log = false) (a : Nat) :
    shouldReArchitect log a =
      (if a < REARCHITECT_THRESHOLD then false
       else (a - REARCHITECT_THRESHOLD) % REARCHITECT_INTERVAL == 0) := by
  unfold shouldReArchitect
  rw [h]
  simp

/-- C1 (counterexample): in a fixed non-thrashing run (16 identical error
signatures), the escalation tier is 3 at attempt 15 but drops back to 2 at
attempt 16, so `getEscalationTier` is NOT non-decreasing in the attempt
number as the claim states. -/
theorem C1_tier_monotonicity_counterexample :
    isErrorThrashing (List.replicate 16 ⟨"E", "E", 1⟩) = false ∧
    getEscalationTier (List.replicate 16 ⟨"E", "E", 1⟩) 15 = 3 ∧
    getEscalationTier (List.replicate 16 ⟨"E", "E", 1⟩) 16 = 2 ∧
    ¬ (15 : Nat) > 16 := by
  decide

/-- C1 (amended): for a fixed non-thrashing run the tier is non-decreasing
only up to the first re-architecture threshold (attempt 15); it equals 3
exactly when `shouldReArchitect` is true; below attempt 6 it is 1; and it is
2 once the attempt exceeds 5 while `shouldReArchitect` is false. -/
theorem C1_tier_amended (log : List ErrorRecord)
    (h : isErrorThrashing log = false) :
    (∀ a b : Nat, a ≤ b → b ≤ REARCHITECT_THRESHOLD →
      getEscalationTier log a ≤ getEscalationTier log b) ∧
    (∀ a : Nat, getEscalationTier log a = 3 ↔ shouldReArchitect log a = true) ∧
    (∀ a : Nat, a < 6 → getEscalationTier log a = 1) ∧
    (∀ a : Nat, 5 < a → shouldReArchitect log a = false →
      getEscalationTier log a = 2) := by
  have hs := shouldReArchitect_of_not_thrashing log h
  refine ⟨?_, ?_, ?_, ?_⟩
  · intro a b hab hb
    by_cases hsb : shouldReArchitect log b = true
    · calc getEscalationTier log a ≤ 3 := getEscalationTier_le_three log a
        _ = getEscalationTier log b := by unfold getEscalationTier; rw [hsb]; simp
    · have hb15 : b < REARCHITECT_THRESHOLD := by
        rcases Nat.lt_or_ge b REARCHITECT_THRESHOLD with hlt | hge
        · exact hlt
        · exfalso
          have hbe : b = REARCHITECT_THRESHOLD := by
            unfold REARCHITECT_THRESHOLD at hge hb ⊢; omega
          apply hsb
          rw [hs b, hbe]
          simp
      have hsa : shouldReArchitect log a = false := by
        rw [hs a, if_pos (by omega)]
      have hsb' : shouldReArchitect log b = false := by
        simpa using hsb
      unfold getEscalationTier
      rw [hsa, hsb']
      simp only [Bool.false_eq_true, if_false]
      unfold TIER2_THRESHOLD
      split
      · rw [if_pos (by omega)]
      · split <;> omega
  · intro a
    unfold getEscalationTier
    constructor
    · intro ht
      by_contra hc
      rw [if_neg (by simpa using hc)] at ht
      split at ht <;> omega
    · intro ht
      rw [if_pos ht]
  · intro a ha
    have hsa : shouldReArchitect log a = false := by
      rw [hs a, if_pos (by unfold REARCHITECT_THRESHOLD; omega)]
    unfold getEscalationTier
    rw [hsa]
    simp only [Bool.false_eq_true, if_false]
    rw [if_neg (by unfold TIER2_THRESHOLD; omega)]
  · intro a ha hsa
    unfold getEscalationTier
    rw [hsa]
    simp only [Bool.false_eq_true, if_false]
    rw [if_pos (by unfold TIER2_THRESHOLD; omega)]

/-- C1 (witness): the amended theorem applied to the empty (non-thrashing)
log at attempts 3 ≤ 10 ≤ 15. -/
theorem C1_tier_amended_witness :
    isErrorThrashing ([] : List ErrorRecord) = false ∧
    getEscalationTier [] 3 ≤ getEscalationTier [] 10 :=
  ⟨by decide, (C1_tier_amended [] (by decide)).1 3 10 (by decide) (by decide)⟩

/-- C4: `isErrorThrashing` is true iff the log has at least 5 entries and the
signatures of the last 5 entries are pairwise distinct; in particular it is
false for shorter logs and false when two of the last five signatures
coincide. -/
theorem C4_thrashing_iff (log : List ErrorRecord) :
    isErrorThrashing log = true ↔
      5 ≤ log.length ∧ ((lastN 5 log).map (·.sig)).Pairwise (· ≠ ·) := by
  unfold isErrorThrashing
  split
  · rename_i hlt
    simp only [Bool.false_eq_true, false_iff, not_and]
    intro hge
    omega
  · rename_i hge
    show ((firstDedup ((lastN 5 log).map (·.sig))).length ==
      ((lastN 5 log).map (·.sig)).length) = true ↔ _
    rw [beq_iff_eq]
    rw [firstDedup_length_eq_iff]
    constructor
    · intro hnd
      exact ⟨by omega, hnd⟩
    · rintro ⟨-, hp⟩
      exact hp

/-- C5: recording a diagnostic that contains an error-like line and then
immediately querying the consecutive-repeat count of its signature yields at
least 1, and recording byte-identical diagnostic text once more increases
that count by exactly 1. -/
theorem C5_signature_stability (log : List ErrorRecord) (text : String)
    (n1 n2 : Nat) (h : (trimmedLines text).any errorLikeLine = true) :
    1 ≤ getConsecutiveRepeatCount
      (log ++ [⟨getErrorSignature text, text, n1⟩]) (getErrorSignature text) ∧
    getConsecutiveRepeatCount
      (log ++ [⟨getErrorSignature text, text, n1⟩,
               ⟨getErrorSignature text, text, n2⟩]) (getErrorSignature text) =
    getConsecutiveRepeatCount
      (log ++ [⟨getErrorSignature text, text, n1⟩]) (getErrorSignature text)
      + 1 := by
  constructor
  · unfold getConsecutiveRepeatCount
    rw [List.reverse_append]
    simp [consecFromEnd]
  · unfold getConsecutiveRepeatCount
    rw [List.reverse_append, List.reverse_append]
    simp [consecFromEnd]
    omega

/-- C5 (witness): the stability theorem applied to the diagnostic
`"ValueError: boom"` over the empty log. -/
theorem C5_signature_stability_witness :
    (trimmedLines "ValueError: boom").any errorLikeLine = true ∧
    1 ≤ getConsecutiveRepeatCount
      [⟨getErrorSignature "ValueError: boom", "ValueError: boom", 1⟩]
      (getErrorSignature "ValueError: boom") :=
  ⟨by decide,
   by simpa using
     (C5_signature_stability [] "ValueError: boom" 1 2 (by decide)).1⟩

/-! ### Exact decimal numbers (model of `parseFloat` on `[0-9.]+` tokens)

JavaScript parses these tokens to binary doubles; every such token is an
exact decimal, which we keep as `m / 10^e` with `m e : Nat`.  All threshold
comparisons in the analysed heuristics are then exact. -/

/-- A non-negative decimal number `m / 10 ^ e`. -/
structure DecNum where
  m : Nat
  e : Nat
deriving DecidableEq, Repr

/-- Rational value of a `DecNum` (`mkRat` keeps the definition kernel-computable). -/
def DecNum.toQ (d : DecNum) : ℚ := mkRat d.m (10 ^ d.e)

/-- Value of a digit run, most significant first. -/
def digitsToNat (l : List Char) : Nat :=
  l.foldl (fun n c => 10 * n + (c.toNat - 48)) 0

/-- `parseFloat` on a `[0-9.]+` token: digits, an optional dot, digits; a
second dot and anything after it is ignored; a token with no digit before
the first dot and none after it is `NaN` (`none`). -/
def parseDec (token : List Char) : Option DecNum :=
  let intPart := token.takeWhile Char.isDigit
  let rest := token.drop intPart.length
  match rest with
  | '.' :: r2 =>
    let frac := r2.takeWhile Char.isDigit
    if intPart.isEmpty && frac.isEmpty then none
    else some ⟨digitsToNat (intPart ++ frac), frac.length⟩
  | _ => if intPart.isEmpty then none else some ⟨digitsToNat intPart, 0⟩

/-- Remove trailing fractional zeros (so printing matches the canonical
JavaScript rendering of these values, e.g. `3.50` prints as `3.5`). -/
def stripZeros : Nat → Nat → Nat × Nat
  | m, 0 => (m, 0)
  | m, e + 1 => if m % 10 == 0 then stripZeros (m / 10) e else (m, e + 1)

/-- Decimal rendering of a `DecNum` (JavaScript `Number.prototype.toString`
for the exactly-representable decimals arising here). -/
def decToString (d : DecNum) : String :=
  match stripZeros d.m d.e with
  | (m, 0) => toString m
  | (m, e) =>
    let fr := toString (m % 10 ^ e)
    toString (m / 10 ^ e) ++ "." ++
      String.mk (List.replicate (e - fr.length) '0') ++ fr

/-- `q / n` for a natural divisor, kernel-computable
(equal to real division by `divNat_eq`). -/
def divNat (q : ℚ) (n : Nat) : ℚ := mkRat q.num (q.den * n)

theorem divNat_eq (q : ℚ) (n : Nat) : divNat q n = q / n := by
  unfold divNat
  rw [Rat.mkRat_eq_div]
  push_cast
  rw [div_mul_eq_div_div]
  congr 1
  exact Rat.num_div_den q

/-- Round `q` to `k` decimal places and render (model of JavaScript
`Number.prototype.toFixed(k)` for the non-negative values arising here). -/
def qToFixed (k : Nat) (q : ℚ) : String :=
  let n := (⌊q * (10 ^ k : ℚ) + mkRat 1 2⌋).toNat
  if k == 0 then toString n
  else
    let fr := toString (n % 10 ^ k)
    toString (n / 10 ^ k) ++ "." ++
      String.mk (List.replicate (k - fr.length) '0') ++ fr

/-! ### Generic left-to-right global regex scanning

`scanAll` mirrors a JavaScript `while ((m = re.exec(s)) !== null)` loop over
a `/g` regex: at each position the pattern-specific matcher either yields a
capture plus the remaining suffix after the whole match, or the scan
advances one character.  The fuel argument (initialised to the input length
plus one) only bounds the recursion; every matcher consumes at least one
character per match. -/

def scanAll {α : Type} (tryM : List Char → Option (α × List Char)) :
    Nat → List Char → List α
  | 0, _ => []
  | _ + 1, [] => []
  | fuel + 1, l@(_ :: t) =>
    match tryM l with
    | some (a, rest) => a :: scanAll tryM fuel rest
    | none => scanAll tryM fuel t

/-- Run a scanner over a whole string. -/
def runScan {α : Type} (tryM : List Char → Option (α × List Char))
    (s : String) : List α :=
  scanAll tryM (s.data.length + 1) s.data

/-- Index-tracking variant (matcher returns the number of consumed
characters); used where the source inspects `match.index`. -/
def scanIdxAll {α : Type} (tryM : List Char → Option (α × Nat)) :
    Nat → Nat → List Char → List (Nat × α)
  | 0, _, _ => []
  | _ + 1, _, [] => []
  | fuel + 1, i, l@(_ :: t) =>
    match tryM l with
    | some (a, k) => (i, a) :: scanIdxAll tryM fuel (i + k) (l.drop k)
    | none => scanIdxAll tryM fuel (i + 1) t

/-- Case-insensitive literal prefix: consume `pat` (given lowercase) from
`l`, returning the rest. -/
def dropLitCi : List Char → List Char → Option (List Char)
  | [], l => some l
  | _ :: _, [] => none
  | p :: ps, c :: cs => if p == c.toLower then dropLitCi ps cs else none

/-- Case-sensitive literal prefix. -/
def dropLitCs : List Char → List Char → Option (List Char)
  | [], l => some l
  | _ :: _, [] => none
  | p :: ps, c :: cs => if p == c then dropLitCs ps cs else none

/-! ### `validateOutputQuality` (orchestrator.ts lines 318–453) -/

/-- Is this position a `\b` boundary, given the preceding character? -/
def atBoundary : Option Char → Bool
  | none => true
  | some c => !isWordChar c

/-- Count the matches of `/\b<pat>\b/gi` for a word-only pattern `pat`
(given lowercase): case-insensitive occurrences delimited by word
boundaries, scanned left to right, resuming after each match. -/
def wbCountAux (pat : List Char) : Option Char → Nat → List Char → Nat
  | _, 0, _ => 0
  | _, _ + 1, [] => 0
  | prev, fuel + 1, l@(c :: t) =>
    match dropLitCi pat l with
    | some rest =>
      if atBoundary prev &&
          (match rest with | [] => true | r :: _ => !isWordChar r) then
        1 + wbCountAux pat ((l.take pat.length).getLast?.getD c) fuel rest
      else wbCountAux pat (some c) fuel t
    | none => wbCountAux pat (some c) fuel t

/-- `output.match(/\bnan\b/gi)` count. -/
def countNan (s : String) : Nat :=
  wbCountAux "nan".data none (s.data.length + 1) s.data

/-- `output.match(/\binf\b/gi)` count. -/
def countInf (s : String) : Nat :=
  wbCountAux "inf".data none (s.data.length + 1) s.data

/-- Check 1a: NaN finding. -/
def nanIssue (output : String) : Option String :=
  if 2 ≤ countNan output then
    some ("Output contains NaN values (" ++ toString (countNan output) ++
      " occurrences) — likely a numerical instability bug (exploding gradients, division by zero, or log of zero)")
  else none

/-- Check 1b: Infinity finding. -/
def infIssue (output : String) : Option String :=
  if 2 ≤ countInf output then
    some ("Output contains Infinity values (" ++ toString (countInf output) ++
      " occurrences) — numerical overflow")
  else none

/-- `[:\s]*` followed by a mandatory `([0-9.]+)` capture. -/
def numAfterSeps (r : List Char) : Option (List Char × List Char) :=
  let r1 := r.dropWhile (fun c => c == ':' || isSpaceChar c)
  let tok := r1.takeWhile isNumChar
  if tok.isEmpty then none else some (tok, r1.drop tok.length)

/-- Consume an optional trailing `%`. -/
def consumePct : List Char × List Char → List Char × List Char
  | (tok, '%' :: r) => (tok, r)
  | p => p

/-- One match attempt of `/(?:train|training)\s*(?:acc|accuracy)[:\s]*([0-9.]+)/gi`,
with the alternations tried left to right as a backtracking engine does. -/
def tryTrainAccAt (l : List Char) : Option (List Char × List Char) :=
  let after := fun (r : List Char) =>
    let r1 := r.dropWhile isSpaceChar
    match (dropLitCi "acc".data r1).bind numAfterSeps with
    | some p => some p
    | none => (dropLitCi "accuracy".data r1).bind numAfterSeps
  match (dropLitCi "train".data l).bind after with
  | some p => some p
  | none => (dropLitCi "training".data l).bind after

/-- One match attempt of `/(?:acc|accuracy)[:\s]*([0-9.]+)%?/gi`. -/
def tryAccAt (l : List Char) : Option (List Char × List Char) :=
  match (dropLitCi "acc".data l).bind numAfterSeps with
  | some p => some (consumePct p)
  | none => ((dropLitCi "accuracy".data l).bind numAfterSeps).map consumePct

/-- One match attempt of `/(?:test)\s*(?:acc|accuracy)[:\s]*([0-9.]+)%?/gi`. -/
def tryTestAccAt (l : List Char) : Option (List Char × List Char) :=
  (dropLitCi "test".data l).bind fun r =>
    let r1 := r.dropWhile isSpaceChar
    match (dropLitCi "acc".data r1).bind numAfterSeps with
    | some p => some (consumePct p)
    | none => ((dropLitCi "accuracy".data r1).bind numAfterSeps).map consumePct

/-- One match attempt of `/loss[:\s]*([0-9.]+)/gi`. -/
def tryLossAt (l : List Char) : Option (List Char × List Char) :=
  (dropLitCi "loss".data l).bind numAfterSeps

/-- Tokens captured by the two accuracy regexes, first pass then second, as
in the source's `for (const pat of accPatterns)` loop. -/
def accTokens (s : String) : List (List Char) :=
  runScan tryTrainAccAt s ++ runScan tryAccAt s

/-- Percentage normalization: `if (val > 1 && val <= 100) val /= 100`. -/
def normAcc (q : ℚ) : ℚ := if 1 < q ∧ q ≤ 100 then divNat q 100 else q

/-- Parse, normalize, and keep values in `[0, 1]`
(`if (val >= 0 && val <= 1) accuracies.push(val)`). -/
def collectAccs (toks : List (List Char)) : List ℚ :=
  toks.filterMap fun tok =>
    (parseDec tok).bind fun d =>
      let v := normAcc d.toQ
      if 0 ≤ v ∧ v ≤ 1 then some v else none

/-- The `accuracies` array of check 2. -/
def accuracies (s : String) : List ℚ := collectAccs (accTokens s)

/-- The `testAccuracies` array of check 3. -/
def testAccuracies (s : String) : List ℚ :=
  collectAccs (runScan tryTestAccAt s)

/-- Average of a rational list (sum over length). -/
def avgQ (l : List ℚ) : ℚ := divNat l.sum l.length

/-- `avgFinalAcc`: average of the last 4 accuracy readings. -/
def avgFinalAcc (s : String) : ℚ := avgQ (lastN 4 (accuracies s))

/-- `avgTestAcc`: average of the last 3 test-accuracy readings. -/
def avgTestAcc (s : String) : ℚ := avgQ (lastN 3 (testAccuracies s))

/-- `avgTrainAcc`: sum of the last 3 accuracy readings over
`Math.min(accuracies.length, 3)`. -/
def avgTrainAcc (s : String) : ℚ :=
  divNat (lastN 3 (accuracies s)).sum (min (accuracies s).length 3)

/-- Check 2: low final training accuracy. -/
def accIssue (s : String) : Option String :=
  if 3 ≤ (accuracies s).length then
    if avgFinalAcc s < mkRat 1 2 then
      some ("Training accuracy is very low (final average: " ++
        qToFixed 1 (avgFinalAcc s * 100) ++
        "%). For most classification tasks, a properly implemented neural network should reach >70% accuracy. This suggests bugs in: backpropagation gradients, learning rate (too high/low), weight initialization, softmax/cross-entropy implementation, or data preprocessing.")
    else none
  else none

/-- Check 3: test accuracy drastically below train accuracy. -/
def testAccIssue (s : String) : Option String :=
  if 2 ≤ (testAccuracies s).length then
    if avgTestAcc s < mkRat 1 10 ∧ 0 < (accuracies s).length then
      if avgTrainAcc s > avgTestAcc s + mkRat 1 5 then
        some ("Test accuracy (" ++ qToFixed 1 (avgTestAcc s * 100) ++
          "%) is drastically lower than train accuracy (" ++
          qToFixed 1 (avgTrainAcc s * 100) ++
          "%). This large gap suggests a bug in the test evaluation code, not just overfitting.")
      else none
    else none
  else none

/-- `lower.includes("speedup") || (lower.includes("gpu time") && lower.includes("cpu time"))`. -/
def speedupIdiom (s : String) : Bool :=
  let lower := s.data.map Char.toLower
  containsL "speedup".data lower ||
  (containsL "gpu time".data lower && containsL "cpu time".data lower)

/-- One match attempt of `/speedup[:\s|]*([0-9.]+)\s*x?/gi`, returning the
captured token and the number of characters the whole match consumed. -/
def trySpeedupAt (l : List Char) : Option (List Char × Nat) :=
  (dropLitCi "speedup".data l).bind fun r =>
    let seps := r.takeWhile (fun c => c == ':' || c == '|' || isSpaceChar c)
    let r1 := r.drop seps.length
    let tok := r1.takeWhile isNumChar
    if tok.isEmpty then none
    else
      let r2 := r1.drop tok.length
      let ws := r2.takeWhile isSpaceChar
      let xConsumed : Nat :=
        match r2.drop ws.length with
        | c :: _ => if c == 'x' || c == 'X' then 1 else 0
        | [] => 0
      some (tok, 7 + seps.length + tok.length + ws.length + xConsumed)

/-- All inline speedup matches with their match indices. -/
def inlineSpeedupMatches (s : String) : List (Nat × List Char) :=
  scanIdxAll trySpeedupAt (s.data.length + 1) 0 s.data

/-- Content search for `/===\s*(.+?)\s*===/`: after the opening `===` and
its greedy whitespace run, lazily extend a non-newline content run of length
at least 1 until a whitespace run followed by `===` closes the match.
Returns (content length, trailing-whitespace length, suffix after the
closing `===`). -/
def hdrClose (acc : Nat) : List Char → Option (Nat × Nat × List Char)
  | [] => none
  | c :: t =>
    if acc ≥ 1 then
      let tr := (c :: t).takeWhile isSpaceChar
      match dropLitCs "===".data ((c :: t).drop tr.length) with
      | some rest => some (acc, tr.length, rest)
      | none => if c == '\n' then none else hdrClose (acc + 1) t
    else if c == '\n' then none else hdrClose (acc + 1) t

/-- One match attempt of `/===\s*(.+?)\s*===/g`, returning the full matched
text and the suffix after it. -/
def tryHeaderAt (l : List Char) : Option (List Char × List Char) :=
  (dropLitCs "===".data l).bind fun r =>
    let ws := r.takeWhile isSpaceChar
    (hdrClose 0 (r.drop ws.length)).map fun (n, tr, rest) =>
      (l.take (3 + ws.length + n + tr + 3), rest)

/-- `full.replace(/===/g, "")`. -/
def removeTriples : Nat → List Char → List Char
  | 0, _ => []
  | _ + 1, [] => []
  | fuel + 1, l@(c :: t) =>
    match dropLitCs "===".data l with
    | some rest => removeTriples fuel rest
    | none => c :: removeTriples fuel t

/-- Task name near an inline speedup match: last `/===\s*(.+?)\s*===/`
header in the 200 characters before the match, `===` stripped and trimmed;
`"a task"` if none. -/
def taskNameAt (s : String) (idx : Nat) : String :=
  let window := (s.data.take idx).drop (idx - 200)
  match (scanAll tryHeaderAt (window.length + 1) window).getLast? with
  | some full =>
    String.mk (trimAscii (removeTriples (full.length + 1) full))
  | none => "a task"

/-- Inline slow-task entries: every inline speedup ratio parsing below 1
contributes `"<task> (<ratio>x)"`. -/
def inlineSlowTasks (s : String) : List String :=
  (inlineSpeedupMatches s).filterMap fun p =>
    match parseDec p.2 with
    | some d =>
      if d.toQ < 1 then some (taskNameAt s p.1 ++ " (" ++ decToString d ++ "x)")
      else none
    | none => none

/-- A parsed summary-table row `| Task | GPU Time | CPU Time | Speedup |`. -/
structure TableRow where
  task : String
  gpuTok : List Char
  cpuTok : List Char
  spTok : List Char
deriving DecidableEq, Repr

/-- `\s*([0-9.]+)\s*\|` — one numeric cell with its closing pipe. -/
def numCell (r : List Char) : Option (List Char × List Char) :=
  let r1 := r.dropWhile isSpaceChar
  let tok := r1.takeWhile isNumChar
  if tok.isEmpty then none
  else
    match (r1.drop tok.length).dropWhile isSpaceChar with
    | '|' :: r3 => some (tok, r3)
    | _ => none

/-- One match attempt of
`/\|\s*([^|]+?)\s*\|\s*([0-9.]+)\s*\|\s*([0-9.]+)\s*\|\s*([0-9.]+)\s*\|/g`.
The first cell is any non-empty pipe-free run (captured trimmed, as the lazy
group with surrounding `\s*` yields); the three numeric cells are exact. -/
def tryTableRowAt (l : List Char) : Option (TableRow × List Char) :=
  match l with
  | '|' :: r =>
    let cell := r.takeWhile (fun c => c != '|')
    if cell.isEmpty then none
    else
      match r.drop cell.length with
      | '|' :: r1 =>
        (numCell r1).bind fun (t1, r2) =>
          (numCell r2).bind fun (t2, r3) =>
            (numCell r3).map fun (t3, r4) =>
              (⟨String.mk (trimAscii cell), t1, t2, t3⟩, r4)
      | _ => none
  | _ => none

/-- All summary-table rows of the output. -/
def tableRows (s : String) : List TableRow := runScan tryTableRowAt s

/-- `speedup < 1.0 || (gpuTime > cpuTime && !isNaN(gpuTime) && !isNaN(cpuTime))`. -/
def rowFlagged (row : TableRow) : Bool :=
  (match parseDec row.spTok with
   | some d => decide (d.toQ < 1)
   | none => false) ||
  (match parseDec row.gpuTok, parseDec row.cpuTok with
   | some g, some c => decide (c.toQ < g.toQ)
   | _, _ => false)

/-- `` `${taskName} (${speedup}x)` `` for a table row. -/
def rowEntry (row : TableRow) : String :=
  row.task ++ " (" ++
    (match parseDec row.spTok with
     | some d => decToString d
     | none => "NaN") ++ "x)"

/-- The table loop: push an entry for each flagged row unless some existing
entry already contains the task name. -/
def addTableRows (init : List String) (rows : List TableRow) : List String :=
  rows.foldl
    (fun acc row =>
      if rowFlagged row && !(acc.any (fun e => containsS row.task e)) then
        acc ++ [rowEntry row]
      else acc)
    init

/-- The full `slowTasks` array of check 4. -/
def slowTasks (s : String) : List String :=
  addTableRows (inlineSlowTasks s) (tableRows s)

/-- `Array.prototype.join(sep)`. -/
def joinWithSep (sep : String) : List String → String
  | [] => ""
  | [x] => x
  | x :: y :: t => x ++ sep ++ joinWithSep sep (y :: t)

/-- Check 4: GPU slower than CPU. -/
def speedupIssue (s : String) : Option String :=
  if speedupIdiom s then
    if (slowTasks s).isEmpty then none
    else
      some ("GPU is SLOWER than CPU for: " ++ joinWithSep ", " (slowTasks s) ++
        ". This means the GPU code is NOT properly vectorized. ALL operations must use CuPy array operations — NEVER use Python for-loops over data. For Monte Carlo: generate all random paths in ONE cp.random call. Also ensure cp.cuda.Stream.null.synchronize() is called before timing to measure actual GPU computation.")
  else none

/-- The `losses` array of check 5: parsed values kept when `0 ≤ v < 100`. -/
def losses (s : String) : List ℚ :=
  (runScan tryLossAt s).filterMap fun tok =>
    (parseDec tok).bind fun d =>
      if 0 ≤ d.toQ ∧ d.toQ < 100 then some d.toQ else none

/-- Check 5: loss not decreasing. -/
def lossIssue (s : String) : Option String :=
  let ls := losses s
  if 5 ≤ ls.length then
    match ls, ls.getLast? with
    | f :: _, some lst =>
      if lst ≥ f * mkRat 19 20 then
        some ("Loss is NOT decreasing during training (first: " ++
          qToFixed 4 f ++ ", last: " ++ qToFixed 4 lst ++
          "). The network is not learning. Check: learning rate, gradient computation, weight updates.")
      else none
    | _, _ => none
  else none

/-- One match attempt of `/accuracy[:\s]*0\.0+[,\s]/g` (case-sensitive). -/
def tryZeroAccAt (l : List Char) : Option (Unit × List Char) :=
  (dropLitCs "accuracy".data l).bind fun r =>
    let r1 := r.dropWhile (fun c => c == ':' || isSpaceChar c)
    match r1 with
    | '0' :: '.' :: r2 =>
      let zs := r2.takeWhile (fun c => c == '0')
      if zs.isEmpty then none
      else
        match r2.drop zs.length with
        | c :: r3 => if c == ',' || isSpaceChar c then some ((), r3) else none
        | [] => none
    | _ => none

/-- Check 6: more than 5 exact-zero accuracy readings. -/
def zeroAccIssue (s : String) : Option String :=
  if 5 < (runScan tryZeroAccAt s).length then
    some "Multiple accuracy readings are exactly 0.0 — the model is producing constant predictions (all same class)."
  else none

/-- The ordered list of findings of `validateOutputQuality`. -/
def validateIssues (output : String) : List String :=
  [nanIssue output, infIssue output, accIssue output, testAccIssue output,
   speedupIssue output, lossIssue output, zeroAccIssue output].filterMap id

/-- `validateOutputQuality` — `null` when no finding, else the findings
joined by blank lines. -/
def validateOutputQuality (output : String) : Option String :=
  let issues := validateIssues output
  if issues.isEmpty then none
  else some (joinWithSep "\n\n" issues)

/-! ### Infix/append helper lemmas -/

theorem strData_append (a b : String) : (a ++ b).data = a.data ++ b.data := rfl

theorem infix_app_left {α : Type} {x b : List α} (a : List α)
    (h : x <:+: b) : x <:+: a ++ b := by
  obtain ⟨s, t, rfl⟩ := h
  exact ⟨a ++ s, t, by simp⟩

theorem infix_app_right {α : Type} {x a : List α} (b : List α)
    (h : x <:+: a) : x <:+: a ++ b := by
  obtain ⟨s, t, rfl⟩ := h
  exact ⟨s, t ++ b, by simp⟩

theorem mem_join_inf {e : String} {l : List String} (sep : String)
    (h : e ∈ l) : e.data <:+: (joinWithSep sep l).data := by
  induction l with
  | nil => cases h
  | cons x t ih =>
    cases t with
    | nil =>
      rcases List.mem_cons.mp h with rfl | h
      · exact List.infix_refl _
      · cases h
    | cons y r =>
      rcases List.mem_cons.mp h with rfl | h
      · refine ⟨[], (sep ++ joinWithSep sep (y :: r)).data, ?_⟩
        simp [joinWithSep, strData_append]
      · exact infix_app_left _ (by simpa [strData_append] using ih h)

/-! ### Structure lemmas for the speedup check -/

theorem addTableRows_mem_init {rows : List TableRow} {init : List String}
    {e : String} (h : e ∈ init) : e ∈ addTableRows init rows := by
  induction rows generalizing init with
  | nil => simpa [addTableRows] using h
  | cons r rs ih =>
    unfold addTableRows at ih ⊢
    rw [List.foldl_cons]
    split
    · exact ih (List.mem_append_left _ h)
    · exact ih h

theorem addTableRows_ne_nil {rows : List TableRow} {init : List String}
    (h : init ≠ []) : addTableRows init rows ≠ [] := by
  obtain ⟨e, he⟩ := List.exists_mem_of_ne_nil init h
  exact List.ne_nil_of_mem (addTableRows_mem_init he)

theorem rowEntry_contains_task (row : TableRow) :
    row.task.data <:+: (rowEntry row).data := by
  refine ⟨[], (" (" ++
    (match parseDec row.spTok with
     | some d => decToString d
     | none => "NaN") ++ "x)").data, ?_⟩
  simp [rowEntry, strData_append]

theorem addTableRows_names {rows : List TableRow} {row : TableRow}
    (init : List String) (hrow : row ∈ rows) (hflag : rowFlagged row = true) :
    ∃ e ∈ addTableRows init rows, row.task.data <:+: e.data := by
  induction rows generalizing init with
  | nil => cases hrow
  | cons r rs ih =>
    unfold addTableRows at ih ⊢
    rw [List.foldl_cons]
    rcases List.mem_cons.mp hrow with rfl | hrow
    · by_cases hc :
        (rowFlagged row && !(init.any (fun e => containsS row.task e))) = true
      · rw [if_pos hc]
        exact ⟨rowEntry row,
          addTableRows_mem_init (List.mem_append_right _ (by simp)),
          rowEntry_contains_task row⟩
      · rw [if_neg hc]
        have hany : init.any (fun e => containsS row.task e) = true := by
          rcases Bool.and_eq_false_iff.mp (Bool.not_eq_true _ ▸ hc) with h | h
          · exact absurd hflag (by simp [h])
          · simpa using h
        obtain ⟨e, he, hce⟩ := List.any_eq_true.mp hany
        exact ⟨e, addTableRows_mem_init he, containsL_iff_inf.mp hce⟩
    · split
      · exact ih _ hrow
      · exact ih _ hrow

theorem speedupIssue_some_of_ne_nil {s : String}
    (hid : speedupIdiom s = true) (hne : slowTasks s ≠ []) :
    ∃ msg, speedupIssue s = some msg ∧
      (joinWithSep ", " (slowTasks s)).data <:+: msg.data := by
  have hcond : ¬ ((slowTasks s).isEmpty = true) := by
    rw [List.isEmpty_iff]
    exact hne
  unfold speedupIssue
  rw [if_pos hid, if_neg hcond]
  refine ⟨_, rfl, ?_⟩
  simp only [strData_append]
  exact infix_app_right _ (infix_app_left _ (List.infix_refl _))

theorem mem_validateIssues_of_speedup {s msg : String}
    (h : speedupIssue s = some msg) : msg ∈ validateIssues s := by
  unfold validateIssues
  refine List.mem_filterMap.mpr ⟨speedupIssue s, by simp, by simp [h]⟩

/-- The two benchmark outputs of the C8 claim. -/
def c8Bench1 : String :=
  "| Task | GPU Time (s) | CPU Time (s) | Speedup |\n| MatMul | 0.38 | 1.32 | 3.5 |"

def c8Bench2 : String :=
  "| Task | GPU Time (s) | CPU Time (s) | Speedup |\n| MatMul | 1.32 | 0.38 | 0.3 |"

def c8Row2 : TableRow := ⟨"MatMul", "1.32".data, "0.38".data, "0.3".data⟩

theorem c8_table_general (s : String) (row : TableRow) (g c : DecNum)
    (hid : speedupIdiom s = true) (hrow : row ∈ tableRows s)
    (hg : parseDec row.gpuTok = some g) (hc : parseDec row.cpuTok = some c)
    (hlt : c.toQ < g.toQ) :
    ∃ msg ∈ validateIssues s, row.task.data <:+: msg.data := by
  have hflag : rowFlagged row = true := by
    unfold rowFlagged
    rw [hg, hc]
    simp [hlt]
  obtain ⟨e, he, hinf⟩ := addTableRows_names (inlineSlowTasks s) hrow hflag
  obtain ⟨msg, hmsg, hjoin⟩ :=
    speedupIssue_some_of_ne_nil hid (List.ne_nil_of_mem he)
  exact ⟨msg, mem_validateIssues_of_speedup hmsg,
    hinf.trans ((mem_join_inf ", " he).trans hjoin)⟩

theorem c8_inline_general (s : String) (p : Nat × List Char) (d : DecNum)
    (hid : speedupIdiom s = true) (hp : p ∈ inlineSpeedupMatches s)
    (hpd : parseDec p.2 = some d) (hlt : d.toQ < 1) :
    (speedupIssue s).isSome = true := by
  have hmem : (taskNameAt s p.1 ++ " (" ++ decToString d ++ "x)") ∈
      inlineSlowTasks s := by
    refine List.mem_filterMap.mpr ⟨p, hp, ?_⟩
    rw [hpd]
    simp [hlt]
  have hne : slowTasks s ≠ [] :=
    addTableRows_ne_nil (List.ne_nil_of_mem hmem)
  obtain ⟨msg, hmsg, -⟩ := speedupIssue_some_of_ne_nil hid hne
  simp [hmsg]

/-- C8: with the speedup idiom present, the healthy benchmark row
`| MatMul | 0.38 | 1.32 | 3.5 |` is not flagged (no finding at all), while
the row `| MatMul | 1.32 | 0.38 | 0.3 |` (GPU slower than CPU) yields a
non-vectorized-GPU finding naming `MatMul`; in general every inline speedup
ratio parsing below 1.0 produces the finding, and every table row whose
parsed GPU time exceeds its parsed CPU time produces a finding containing
the row's task name. -/
theorem C8_speedup_detection :
    (speedupIdiom c8Bench1 = true ∧ validateOutputQuality c8Bench1 = none) ∧
    (speedupIdiom c8Bench2 = true ∧
      ∃ msg ∈ validateIssues c8Bench2, "MatMul".data <:+: msg.data) ∧
    (∀ (s : String) (p : Nat × List Char) (d : DecNum),
      speedupIdiom s = true → p ∈ inlineSpeedupMatches s →
      parseDec p.2 = some d → d.toQ < 1 → (speedupIssue s).isSome = true) ∧
    (∀ (s : String) (row : TableRow) (g c : DecNum),
      speedupIdiom s = true → row ∈ tableRows s →
      parseDec row.gpuTok = some g → parseDec row.cpuTok = some c →
      c.toQ < g.toQ → ∃ msg ∈ validateIssues s, row.task.data <:+: msg.data) :=
  ⟨⟨by decide, by decide⟩,
   ⟨by decide,
    c8_table_general c8Bench2 c8Row2 ⟨132, 2⟩ ⟨38, 2⟩ (by decide) (by decide)
      (by decide) (by decide) (by decide)⟩,
   fun s p d hid hp hpd hlt => c8_inline_general s p d hid hp hpd hlt,
   fun s row g c hid hrow hg hc hlt =>
     c8_table_general s row g c hid hrow hg hc hlt⟩

/-- C8 (witness): the general table clause applied to the slow MatMul row of
the concrete benchmark output. -/
theorem C8_speedup_detection_witness :
    ∃ msg ∈ validateIssues c8Bench2, c8Row2.task.data <:+: msg.data :=
  C8_speedup_detection.2.2.2 c8Bench2 c8Row2 ⟨132, 2⟩ ⟨38, 2⟩ (by decide)
    (by decide) (by decide) (by decide) (by decide)

/-! ### C7: the NaN threshold -/

/-- Number of positions at which `needle` occurs literally (byte-identical)
in `hay`. -/
def literalCount (needle hay : List Char) : Nat :=
  (hay.tails.filter (fun t => needle.isPrefixOf t)).length

/-- C7 (counterexample): the stdout `"nan NAN"` contains the literal
substring `"nan"` exactly once, yet `validateOutputQuality` DOES report the
NaN finding, because the source counts case-insensitive word-bounded
matches of `/\bnan\b/gi` rather than literal substrings. -/
theorem C7_nan_threshold_counterexample :
    literalCount "nan".data "nan NAN".data = 1 ∧
    countNan "nan NAN" = 2 ∧
    (nanIssue "nan NAN").isSome = true ∧
    (validateOutputQuality "nan NAN").isSome = true := by
  decide

/-- C7 (amended): with occurrences counted as the source counts them —
case-insensitive, word-bounded matches of `nan` — at most one match yields
no NaN finding, and two or more matches yield the NaN finding (and hence a
non-`null` quality-validation result). -/
theorem C7_nan_threshold_amended (s : String) :
    (countNan s ≤ 1 → nanIssue s = none) ∧
    (2 ≤ countNan s → (nanIssue s).isSome = true) ∧
    (2 ≤ countNan s → (validateOutputQuality s).isSome = true) := by
  refine ⟨?_, ?_, ?_⟩
  · intro h
    unfold nanIssue
    rw [if_neg (by omega)]
  · intro h
    unfold nanIssue
    rw [if_pos h]
    rfl
  · intro h
    have hmem : (nanIssue s).isSome = true := by
      unfold nanIssue
      rw [if_pos h]
      rfl
    obtain ⟨msg, hmsg⟩ := Option.isSome_iff_exists.mp hmem
    have hin : msg ∈ validateIssues s := by
      unfold validateIssues
      exact List.mem_filterMap.mpr ⟨nanIssue s, by simp, by simp [hmsg]⟩
    unfold validateOutputQuality
    rw [if_neg (by simpa [List.isEmpty_iff] using List.ne_nil_of_mem hin)]
    rfl

/-- C7 (witness): the amended theorem applied to `"banana banana"` (one
literal occurrence inside words, zero word-bounded matches, no finding) and
to `"nan and NAN"` (two word-bounded matches, finding reported). -/
theorem C7_nan_threshold_amended_witness :
    nanIssue "banana banana" = none ∧
    (nanIssue "nan and NAN").isSome = true ∧
    (validateOutputQuality "nan and NAN").isSome = true :=
  ⟨(C7_nan_threshold_amended "banana banana").1 (by decide),
   (C7_nan_threshold_amended "nan and NAN").2.1 (by decide),
   (C7_nan_threshold_amended "nan and NAN").2.2 (by decide)⟩

/-! ### C10: accuracy parsing and normalization -/

theorem collectAccs_mem {toks : List (List Char)} {v : ℚ}
    (h : v ∈ collectAccs toks) : 0 ≤ v ∧ v ≤ 1 := by
  rcases List.mem_filterMap.mp h with ⟨tok, -, hf⟩
  rcases hopt : parseDec tok with _ | d
  · rw [hopt] at hf
    simp at hf
  · rw [hopt] at hf
    simp only [Option.some_bind] at hf
    split at hf
    · rename_i hcond
      cases hf
      exact hcond
    · cases hf

theorem lastN_mem {n : Nat} {l : List ℚ} {v : ℚ} (h : v ∈ lastN n l) :
    v ∈ l := List.mem_of_mem_drop h

theorem lastN_length (n : Nat) (l : List ℚ) :
    (lastN n l).length = min l.length n := by
  simp only [lastN, List.length_drop]
  omega

theorem lastN_ne_nil {n : Nat} {l : List ℚ} (hn : 0 < n) (hl : l ≠ []) :
    lastN n l ≠ [] := by
  have h2 : 0 < l.length := List.length_pos.mpr hl
  intro hnil
  have h3 := congrArg List.length hnil
  rw [lastN_length, List.length_nil] at h3
  omega

theorem avgQ_bounds {l : List ℚ} (h : ∀ v ∈ l, 0 ≤ v ∧ v ≤ 1)
    (hne : l ≠ []) : 0 ≤ avgQ l ∧ avgQ l ≤ 1 := by
  have hlen : 0 < l.length := List.length_pos.mpr hne
  have hsum0 : 0 ≤ l.sum := List.sum_nonneg fun x hx => (h x hx).1
  have hsum1 : l.sum ≤ (l.length : ℚ) := by
    have := List.sum_le_card_nsmul l 1 fun x hx => (h x hx).2
    simpa [nsmul_eq_mul] using this
  unfold avgQ
  rw [divNat_eq]
  constructor
  · exact div_nonneg hsum0 (by exact_mod_cast Nat.zero_le _)
  · rw [div_le_one (by exact_mod_cast hlen)]
    exact hsum1

/-- C10: the accuracy collectors divide every parsed value in `(1, 100]` by
100 and discard every value outside `[0, 1]`, so all collected readings and
all three averages compared against the 0.5 / 0.1 thresholds lie in
`[0, 1]`. -/
theorem C10_accuracy_normalization (s : String) :
    (∀ q : ℚ, 1 < q → q ≤ 100 → normAcc q = q / 100) ∧
    (∀ q : ℚ, ¬ (1 < q ∧ q ≤ 100) → normAcc q = q) ∧
    (∀ v ∈ accuracies s, 0 ≤ v ∧ v ≤ 1) ∧
    (∀ v ∈ testAccuracies s, 0 ≤ v ∧ v ≤ 1) ∧
    (3 ≤ (accuracies s).length → 0 ≤ avgFinalAcc s ∧ avgFinalAcc s ≤ 1) ∧
    (2 ≤ (testAccuracies s).length → 0 ≤ avgTestAcc s ∧ avgTestAcc s ≤ 1) ∧
    (0 < (accuracies s).length → 0 ≤ avgTrainAcc s ∧ avgTrainAcc s ≤ 1) := by
  refine ⟨?_, ?_, ?_, ?_, ?_, ?_, ?_⟩
  · intro q h1 h2
    unfold normAcc
    rw [if_pos ⟨h1, h2⟩, divNat_eq]
    norm_num
  · intro q hq
    unfold normAcc
    rw [if_neg hq]
  · exact fun v hv => collectAccs_mem hv
  · exact fun v hv => collectAccs_mem hv
  · intro hlen
    exact avgQ_bounds (fun v hv => collectAccs_mem (lastN_mem hv))
      (lastN_ne_nil (by omega) (List.length_pos.mp (by omega)))
  · intro hlen
    exact avgQ_bounds (fun v hv => collectAccs_mem (lastN_mem hv))
      (lastN_ne_nil (by omega) (List.length_pos.mp (by omega)))
  · intro hlen
    have heq : avgTrainAcc s = avgQ (lastN 3 (accuracies s)) := by
      unfold avgTrainAcc avgQ
      rw [lastN_length 3 (accuracies s)]
    rw [heq]
    exact avgQ_bounds (fun v hv => collectAccs_mem (lastN_mem hv))
      (lastN_ne_nil (by omega) (List.length_pos.mp (by omega)))

/-- Concrete output with five accuracy readings, two of them test
accuracies. -/
def c10Out : String := "acc: 55\nacc: 60%\nacc: 70\ntest acc: 0.05\ntest acc: 0.06"

/-- C10 (witness): the normalization theorem applied to a concrete output
whose parsed readings include percentage values. -/
theorem C10_accuracy_normalization_witness :
    3 ≤ (accuracies c10Out).length ∧ 2 ≤ (testAccuracies c10Out).length ∧
    (0 ≤ avgFinalAcc c10Out ∧ avgFinalAcc c10Out ≤ 1) ∧
    (0 ≤ avgTestAcc c10Out ∧ avgTestAcc c10Out ≤ 1) ∧
    (0 ≤ avgTrainAcc c10Out ∧ avgTrainAcc c10Out ≤ 1) :=
  ⟨by decide, by decide,
   (C10_accuracy_normalization c10Out).2.2.2.2.1 (by decide),
   (C10_accuracy_normalization c10Out).2.2.2.2.2.1 (by decide),
   (C10_accuracy_normalization c10Out).2.2.2.2.2.2 (by decide)⟩

/-! ### `tryAutoInstall` and `executeCode` (orchestrator.ts lines 277–311 and
459–602)

The subprocess and pip invocations are external capabilities; their results
(`run1`, `pipOk`, `run2`) are explicit oracle parameters, and the model
records which `pip install` command (if any) the code would run. -/

/-- One match attempt of `No module named ['"]?(\w+)` at this position
(the optional trailing quote of the source regex does not affect the
capture). `ci` selects the `/i` flag. -/
def tryNoModuleAt (ci : Bool) (l : List Char) : Option (List Char) :=
  (if ci then dropLitCi "no module named ".data l
   else dropLitCs "No module named ".data l).bind fun r =>
    let r1 := match r with
      | c :: t => if c == Char.ofNat 39 || c == '"' then t else r
      | [] => r
    let w := r1.takeWhile isWordChar
    if w.isEmpty then none else some w

/-- First match of the no-module regex anywhere in the text. -/
def findNoModule (ci : Bool) : List Char → Option (List Char)
  | [] => none
  | l@(_ :: t) =>
    match tryNoModuleAt ci l with
    | some w => some w
    | none => findNoModule ci t

/-- One match attempt of `has no attribute ['"]?\w+` (case-sensitive). -/
def tryHasNoAttrAt (l : List Char) : Option Unit :=
  (dropLitCs "has no attribute ".data l).bind fun r =>
    let r1 := match r with
      | c :: t => if c == Char.ofNat 39 || c == '"' then t else r
      | [] => r
    if (r1.takeWhile isWordChar).isEmpty then none else some ()

/-- Does a pattern match at any position? -/
def anyPosMatch (tryf : List Char → Option Unit) : List Char → Bool
  | [] => false
  | l@(_ :: t) => (tryf l).isSome || anyPosMatch tryf t

/-- The fixed battery of "hidden error" patterns scanned over trimmed stdout
(`errorPatterns` in `executeCode`). -/
def hasHiddenError (t : String) : Bool :=
  let l := t.data
  containsL "Traceback (most recent call last)".data l ||
  containsL "AttributeError:".data l || containsL "TypeError:".data l ||
  containsL "ValueError:".data l || containsL "IndexError:".data l ||
  containsL "KeyError:".data l || containsL "NameError:".data l ||
  containsL "RuntimeError:".data l || containsL "ModuleNotFoundError:".data l ||
  containsL "ImportError:".data l || containsL "FileNotFoundError:".data l ||
  containsL "SyntaxError:".data l || containsL "PermissionError:".data l ||
  containsL "ZeroDivisionError:".data l || containsL "MemoryError:".data l ||
  containsL "OverflowError:".data l ||
  containsL "CUDAError:".data l || containsL "cudaError".data l ||
  containsCi "CUDA out of memory".data l ||
  (findNoModule false l).isSome ||
  anyPosMatch tryHasNoAttrAt l ||
  containsL "object is not callable".data l ||
  containsCi "cannot be broadcast".data l ||
  containsL "not supported between instances".data l ||
  containsL "invalid literal for".data l ||
  containsCi "training failed".data l ||
  containsCi "execution failed".data l ||
  containsCi "fatal error".data l ||
  containsCi "program terminated".data l ||
  containsCi "please check the error".data l

/-- Local/stdlib module names never auto-installed. -/
def skipModules : List String :=
  ["utils", "network", "benchmark", "model", "config", "helpers",
   "lib", "core", "data", "test", "tests", "main", "app"]

/-- The allowlist of known-safe pip packages. -/
def safePackages : List String :=
  ["numpy", "cupy", "torch", "pandas", "matplotlib", "scipy", "scikit-learn",
   "sklearn", "requests", "flask", "fastapi", "pillow", "opencv-python",
   "seaborn", "plotly", "sympy", "networkx", "tqdm", "rich", "colorama"]

/-- `/^[a-zA-Z0-9_-]+$/` on a candidate module name. -/
def pkgNameOk (m : List Char) : Bool :=
  !m.isEmpty && m.all (fun c => c.isAlphanum || c == '_' || c == '-')

/-- The pure decision core of `tryAutoInstall`: the package name that would
be `pip install`ed for this diagnostic, if any. -/
def tryAutoInstallPkg (errorText : String) : Option String :=
  match findNoModule true errorText.data with
  | none => none
  | some w =>
    let m := String.mk (w.map Char.toLower)
    if !pkgNameOk m.data then none
    else if skipModules.contains m then none
    else if !(safePackages.contains m) then none
    else some m

/-- Outcome of one external subprocess execution. -/
inductive ExecOutcome where
  | ok (stdout : String)
  | err (stderr stdout message : String)
deriving DecidableEq, Repr

/-- The record `executeCode` resolves with. -/
structure ExecResult where
  success : Bool
  output : String
  error : String
deriving DecidableEq, Repr

/-- `executeCode`'s result plus its observable install/retry effects. -/
structure ExecTrace where
  result : ExecResult
  pipInstalled : Option String
  retried : Bool
deriving DecidableEq, Repr

/-- `path.extname(filename).toLowerCase()`. -/
def extnameLower (filename : String) : String :=
  let base := (filename.data.reverse.takeWhile (fun c => c != '/')).reverse
  let revBase := base.reverse
  let afterDot := revBase.takeWhile (fun c => c != '.')
  if afterDot.length == revBase.length then ""
  else if afterDot.length + 1 == revBase.length then ""
  else String.mk (('.' :: afterDot.reverse).map Char.toLower)

/-- `stderr || (message || "Unknown execution error")`. -/
def fullErrorOf (stderr message : String) : String :=
  if stderr == "" then
    (if message == "" then "Unknown execution error" else message)
  else stderr

/-- `\n`-join of character-list lines. -/
def joinNlChars : List (List Char) → List Char
  | [] => []
  | [x] => x
  | x :: y :: t => x ++ '\n' :: joinNlChars (y :: t)

/-- Tail truncation of a long traceback: keep the first 3 and last 12 lines
when there are more than 20. -/
def truncateTail (fullError : String) : String :=
  let lines := splitNl fullError.data
  if lines.length > 20 then
    String.mk (joinNlChars (lines.take 3 ++ ["  ...".data] ++ lastN 12 lines))
  else fullError

/-- `/no module named/i.test || /ModuleNotFoundError/i.test`. -/
def moduleErrorText (fullError : String) : Bool :=
  containsCi "no module named".data fullError.data ||
  containsCi "modulenotfounderror".data fullError.data

/-- The `pip install` target for a failed execution's diagnostic: the
auto-install path is entered only for no-module diagnostics, and then only
when `tryAutoInstall`'s validation succeeds. -/
def errInstall (stderr message : String) : Option String :=
  if moduleErrorText (fullErrorOf stderr message) then
    tryAutoInstallPkg (fullErrorOf stderr message)
  else none

/-- The clean-exit path of `executeCode`: hidden-error scan, then quality
validation, then success. -/
def execOkBranch (stdout : String) : ExecTrace :=
  if hasHiddenError (String.mk (trimAscii stdout.data)) then
    ⟨⟨false, String.mk (trimAscii stdout.data),
      "Code ran but produced error output:\n" ++
        String.mk (trimAscii stdout.data)⟩, none, false⟩
  else
    match validateOutputQuality (String.mk (trimAscii stdout.data)) with
    | some qualityIssues =>
      ⟨⟨false, String.mk (trimAscii stdout.data),
        "Code ran without crashing but produced BAD RESULTS:\n" ++
          qualityIssues ++ "\n\nFull output:\n" ++
          String.mk (trimAscii stdout.data)⟩, none, false⟩
    | none => ⟨⟨true, String.mk (trimAscii stdout.data), ""⟩, none, false⟩

/-- The raising path of `executeCode`: try the auto-install (with one silent
re-execution on success), else clean up and report the error. -/
def execErrBranch (stderr stdout message : String) (pipOk : Bool)
    (run2 : ExecOutcome) : ExecTrace :=
  if (errInstall stderr message).isSome && pipOk then
    match run2 with
    | .ok o2 =>
      ⟨⟨true, String.mk (trimAscii o2.data), ""⟩, errInstall stderr message, true⟩
    | .err _ _ _ =>
      ⟨⟨false, String.mk (trimAscii stdout.data),
        String.mk (trimAscii (truncateTail (fullErrorOf stderr message)).data)⟩,
        errInstall stderr message, true⟩
  else
    ⟨⟨false, String.mk (trimAscii stdout.data),
      String.mk (trimAscii (truncateTail (fullErrorOf stderr message)).data)⟩,
      errInstall stderr message, false⟩

/-- The decision/result structure of `executeCode`, with the two subprocess
runs and pip success supplied as oracles. -/
def executeCodeModel (filename : String) (run1 : ExecOutcome) (pipOk : Bool)
    (run2 : ExecOutcome) : ExecTrace :=
  if !(extnameLower filename == ".py" || extnameLower filename == ".js" ||
      extnameLower filename == ".ts") then
    ⟨⟨false, "", "No known runner for " ++ extnameLower filename ++ " files"⟩,
      none, false⟩
  else
    match run1 with
    | .ok stdout => execOkBranch stdout
    | .err stderr stdout message => execErrBranch stderr stdout message pipOk run2

theorem tryAutoInstallPkg_props {e p : String}
    (h : tryAutoInstallPkg e = some p) :
    (∃ w, findNoModule true e.data = some w ∧
      p = String.mk (w.map Char.toLower)) ∧
    pkgNameOk p.data = true ∧ skipModules.contains p = false ∧
    safePackages.contains p = true := by
  unfold tryAutoInstallPkg at h
  rcases hw : findNoModule true e.data with _ | w
  · rw [hw] at h
    cases h
  · rw [hw] at h
    simp only at h
    split at h
    · cases h
    · split at h
      · cases h
      · split at h
        · cases h
        · rename_i h1 h2 h3
          cases h
          refine ⟨⟨w, rfl, rfl⟩, by simpa using h1, by simpa using h2,
            by simpa using h3⟩

theorem execOkBranch_effects (stdout : String) :
    (execOkBranch stdout).pipInstalled = none ∧
    (execOkBranch stdout).retried = false := by
  unfold execOkBranch
  split
  · exact ⟨rfl, rfl⟩
  · split <;> exact ⟨rfl, rfl⟩

theorem execErrBranch_pipInstalled (stderr stdout message : String)
    (pipOk : Bool) (run2 : ExecOutcome) :
    (execErrBranch stderr stdout message pipOk run2).pipInstalled =
      errInstall stderr message := by
  unfold execErrBranch
  split
  · split <;> rfl
  · rfl

theorem errInstall_some {stderr message p : String}
    (h : errInstall stderr message = some p) :
    moduleErrorText (fullErrorOf stderr message) = true ∧
    tryAutoInstallPkg (fullErrorOf stderr message) = some p := by
  unfold errInstall at h
  split at h
  · exact ⟨by assumption, h⟩
  · cases h

/-- C9: a `pip install X` is issued only when the failing diagnostic matches
the no-module pattern and the lowercased captured name passes the
`^[a-zA-Z0-9_-]+$` check, is not a local-module name, and is on the
allowlist; executions that do not raise never install; the silent
re-execution happens exactly when an install was issued and pip succeeded;
and a successful re-execution is reported as a clean success with no
recorded error. -/
theorem C9_auto_install_safety (filename : String) (run1 : ExecOutcome)
    (pipOk : Bool) (run2 : ExecOutcome) :
    (∀ p, (executeCodeModel filename run1 pipOk run2).pipInstalled = some p →
      (∃ stderr stdout message, run1 = .err stderr stdout message ∧
        moduleErrorText (fullErrorOf stderr message) = true ∧
        tryAutoInstallPkg (fullErrorOf stderr message) = some p ∧
        ∃ w, findNoModule true (fullErrorOf stderr message).data = some w ∧
          p = String.mk (w.map Char.toLower)) ∧
      pkgNameOk p.data = true ∧ skipModules.contains p = false ∧
      safePackages.contains p = true) ∧
    (∀ stdout, run1 = .ok stdout →
      (executeCodeModel filename run1 pipOk run2).pipInstalled = none ∧
      (executeCodeModel filename run1 pipOk run2).retried = false) ∧
    ((executeCodeModel filename run1 pipOk run2).retried = true →
      (executeCodeModel filename run1 pipOk run2).pipInstalled.isSome = true ∧
      pipOk = true) ∧
    (∀ o2, (executeCodeModel filename run1 pipOk run2).retried = true →
      run2 = .ok o2 →
      (executeCodeModel filename run1 pipOk run2).result =
        ⟨true, String.mk (trimAscii o2.data), ""⟩) := by
  cases run1 with
  | ok stdout =>
    refine ⟨?_, ?_, ?_, ?_⟩
    · intro p hp
      unfold executeCodeModel at hp
      split at hp
      · simp at hp
      · replace hp : (execOkBranch stdout).pipInstalled = some p := hp
        rw [(execOkBranch_effects stdout).1] at hp
        cases hp
    · intro stdout2 h
      unfold executeCodeModel
      split
      · exact ⟨rfl, rfl⟩
      · exact execOkBranch_effects stdout
    · intro h
      unfold executeCodeModel at h
      split at h
      · simp at h
      · replace h : (execOkBranch stdout).retried = true := h
        rw [(execOkBranch_effects stdout).2] at h
        cases h
    · intro o2 h
      unfold executeCodeModel at h
      split at h
      · simp at h
      · replace h : (execOkBranch stdout).retried = true := h
        rw [(execOkBranch_effects stdout).2] at h
        cases h
  | err stderr stdout message =>
    refine ⟨?_, ?_, ?_, ?_⟩
    · intro p hp
      unfold executeCodeModel at hp
      split at hp
      · simp at hp
      · replace hp :
          (execErrBranch stderr stdout message pipOk run2).pipInstalled =
            some p := hp
        rw [execErrBranch_pipInstalled] at hp
        obtain ⟨hmod, htry⟩ := errInstall_some hp
        obtain ⟨⟨w, hw, hlow⟩, hok, hskip, hsafe⟩ := tryAutoInstallPkg_props htry
        exact ⟨⟨stderr, stdout, message, rfl, hmod, htry, w, hw, hlow⟩,
          hok, hskip, hsafe⟩
    · intro stdout2 h
      cases h
    · intro h
      unfold executeCodeModel at h ⊢
      split at h
      · simp at h
      · rename_i hext
        replace h : (execErrBranch stderr stdout message pipOk run2).retried =
          true := h
        rw [if_neg hext]
        show (execErrBranch stderr stdout message pipOk run2).pipInstalled.isSome
          = true ∧ pipOk = true
        rw [execErrBranch_pipInstalled]
        unfold execErrBranch at h
        split at h
        · rename_i hcond
          exact ⟨(Bool.and_eq_true_iff.mp hcond).1,
            (Bool.and_eq_true_iff.mp hcond).2⟩
        · simp at h
    · intro o2 h hrun2
      subst hrun2
      unfold executeCodeModel at h ⊢
      split at h
      · simp at h
      · rename_i hext
        replace h :
          (execErrBranch stderr stdout message pipOk (.ok o2)).retried =
            true := h
        rw [if_neg hext]
        show (execErrBranch stderr stdout message pipOk (.ok o2)).result = _
        unfold execErrBranch at h ⊢
        split at h
        · rename_i hcond
          rw [if_pos hcond]
        · simp at h

/-- The concrete failing first run of the C9 witness. -/
def c9Err : ExecOutcome := .err "ModuleNotFoundError: No module named numpy" "" ""

/-- C9 (witness): a `numpy` no-module failure with a successful install and
re-execution is reported as a clean success. -/
theorem C9_auto_install_safety_witness :
    (executeCodeModel "main.py" c9Err true (.ok "42")).retried = true ∧
    (executeCodeModel "main.py" c9Err true (.ok "42")).pipInstalled =
      some "numpy" ∧
    (executeCodeModel "main.py" c9Err true (.ok "42")).result =
      ⟨true, String.mk (trimAscii "42".data), ""⟩ :=
  ⟨by decide, by decide,
   (C9_auto_install_safety "main.py" c9Err true (.ok "42")).2.2.2 "42"
     (by decide) rfl⟩

/-! ### Code-block extraction (`extractCodeBlocks`, orchestrator.ts 645–666) -/

/-- A fenced code region. -/
structure CodeBlock where
  language : String
  code : String
  filename : Option String
deriving DecidableEq, Repr

/-- Index of the first occurrence of `needle`. -/
def findSubIdx (needle : List Char) : List Char → Option Nat
  | [] => if needle.isEmpty then some 0 else none
  | l@(_ :: t) =>
    if needle.isPrefixOf l then some 0 else (findSubIdx needle t).map (· + 1)

/-- One line matched against
`/^(?:\/\/|#|--|\/\*)\s*filename:\s*(.+?)(?:\s*\*\/)?$/`, returning the
trimmed captured path. -/
def filenameOfLine (line : List Char) : Option (List Char) :=
  (match dropLitCs "//".data line with
   | some r => some r
   | none =>
     match dropLitCs "#".data line with
     | some r => some r
     | none =>
       match dropLitCs "--".data line with
       | some r => some r
       | none => dropLitCs "/*".data line).bind fun r =>
    let r1 := r.dropWhile isSpaceChar
    (dropLitCs "filename:".data r1).bind fun r2 =>
      let r3 := r2.dropWhile isSpaceChar
      let core :=
        if "/*".data.isPrefixOf r3.reverse then
          (r3.reverse.drop 2).dropWhile isSpaceChar |>.reverse
        else r3
      if core.isEmpty then none else some (trimAscii core)

/-- First `filename:` comment line of a code region. -/
def filenameFromCode (code : List Char) : Option String :=
  ((splitNl code).findSome? filenameOfLine).map String.mk

/-- One match attempt of `` /```(\w+)?\n([\s\S]*?)```/g ``. -/
def tryCodeBlockAt (l : List Char) : Option (CodeBlock × List Char) :=
  (dropLitCs "```".data l).bind fun r =>
    let lang := r.takeWhile isWordChar
    match r.drop lang.length with
    | '\n' :: r2 =>
      (findSubIdx "```".data r2).map fun i =>
        let code := trimAscii (r2.take i)
        (⟨if lang.isEmpty then "plaintext" else String.mk lang,
          String.mk code, filenameFromCode code⟩, r2.drop (i + 3))
    | _ => none

/-- `extractCodeBlocks` — all fenced code regions of an agent response. -/
def extractCodeBlocks (text : String) : List CodeBlock :=
  runScan tryCodeBlockAt text

/-! ### Agent invoker (`runAgent`, orchestrator.ts 672–712) -/

/-- The events of the SSE stream relevant to the orchestration core. -/
inductive SSEEv where
  | agentStart (role : AgentRole)
  | agentChunk (role : AgentRole) (content : String)
  | agentComplete (role : AgentRole) (content : String)
  | codeUpdate (role : AgentRole) (code : CodeBlock)
  | workflowError (error : String)
deriving DecidableEq, Repr

/-- Outcome of the external streamed model call: the chunks received, and
whether the stream then completed or failed with a message. -/
inductive StreamOutcome where
  | ok (chunks : List String)
  | fail (chunks : List String) (msg : String)
deriving DecidableEq, Repr

/-- `fullResponse += chunk` accumulation. -/
def concatChunks (l : List String) : String := l.foldl (· ++ ·) ""

/-- `runAgent` — emits `agent_start`, one `agent_chunk` per received chunk,
then `agent_complete` with the accumulated text; on a model-call failure it
emits a `workflow_error` naming the agent instead and stops. -/
def runAgentEvents (role : AgentRole) (out : StreamOutcome) : List SSEEv :=
  match out with
  | .ok chunks =>
    .agentStart role :: chunks.map (SSEEv.agentChunk role) ++
      [.agentComplete role (concatChunks chunks)]
  | .fail chunks msg =>
    .agentStart role :: chunks.map (SSEEv.agentChunk role) ++
      [.workflowError ("Agent " ++ agentName role ++
        " encountered an error: " ++ msg)]

/-- The orchestrator's `response` after a `runAgent` loop: the content of
the `agent_complete` event if one was emitted, else the initial `""`. -/
def responseOf (out : StreamOutcome) : String :=
  match out with
  | .ok chunks => concatChunks chunks
  | .fail _ _ => ""

/-- One conversation turn. -/
structure Turn where
  role : AgentRole
  content : String
deriving DecidableEq, Repr

/-- The first two Phase-1 steps of `runOrchestration` (lines 819–851): run
the Architect, unconditionally push its turn, then run the Developer on the
resulting history and push its turn, emitting `code_update` events for the
Developer's code blocks.  There is no check for `workflow_error` between the
steps. -/
def phase1ArchDev (archOut devOut : StreamOutcome) :
    List SSEEv × List Turn :=
  (runAgentEvents .architect archOut ++ runAgentEvents .developer devOut ++
     (extractCodeBlocks (responseOf devOut)).map (SSEEv.codeUpdate .developer),
   [⟨.architect, responseOf archOut⟩, ⟨.developer, responseOf devOut⟩])

def c2ArchOut : StreamOutcome := .fail ["partial"] "ECONNRESET"

def c2DevOut : StreamOutcome := .ok ["done"]

/-- C2 (counterexample): when the Architect's model call fails, `runAgent`
does emit a `workflow_error` naming the agent and no `agent_complete` — but
the orchestrator neither treats this as "turn not appended" nor terminates:
the empty Architect turn IS appended to the history, and the Developer call
still runs after the `workflow_error` event. -/
theorem C2_transport_failure_counterexample :
    runAgentEvents .architect c2ArchOut =
      [.agentStart .architect, .agentChunk .architect "partial",
       .workflowError "Agent Nova encountered an error: ECONNRESET"] ∧
    ((runAgentEvents .architect c2ArchOut).all fun e =>
      match e with
      | .agentComplete .architect _ => false
      | _ => true) = true ∧
    (phase1ArchDev c2ArchOut c2DevOut).2 =
      [⟨.architect, ""⟩, ⟨.developer, "done"⟩] ∧
    (phase1ArchDev c2ArchOut c2DevOut).1 =
      [.agentStart .architect, .agentChunk .architect "partial",
       .workflowError "Agent Nova encountered an error: ECONNRESET",
       .agentStart .developer, .agentChunk .developer "done",
       .agentComplete .developer "done"] := by
  decide

/-- C2 (amended): on a model-call failure `runAgent` emits a terminal
`workflow_error` naming the agent and yields no `agent_complete`; the
orchestrator however appends the turn (with empty content) to the history
and continues the workflow — the next agent call still starts. -/
theorem C2_transport_failure_amended (chunks : List String) (msg : String)
    (devOut : StreamOutcome) :
    SSEEv.workflowError ("Agent " ++ agentName .architect ++
        " encountered an error: " ++ msg) ∈
      runAgentEvents .architect (.fail chunks msg) ∧
    (∀ c, SSEEv.agentComplete .architect c ∉
      runAgentEvents .architect (.fail chunks msg)) ∧
    (phase1ArchDev (.fail chunks msg) devOut).2.head? =
      some ⟨.architect, ""⟩ ∧
    SSEEv.agentStart .developer ∈ (phase1ArchDev (.fail chunks msg) devOut).1 := by
  refine ⟨?_, ?_, ?_, ?_⟩
  · simp [runAgentEvents]
  · intro c
    simp only [runAgentEvents, List.mem_cons, List.mem_append, List.mem_map]
    rintro (h | ⟨x, -, h⟩ | h) <;> simp_all
  · rfl
  · cases devOut <;>
      simp [phase1ArchDev, runAgentEvents, List.mem_append]

/-! ### Context builder (`estimateTokens`, `buildContext` —
orchestrator.ts lines 718–792)

`getSystemContext()` probes the host environment; it enters `buildContext`
only as an opaque string and is therefore an explicit parameter here. -/

/-- `Math.ceil(text.length / 4)`. -/
def estimateTokens (text : String) : Nat := (text.length + 3) / 4

def MAX_CONTEXT_TOKENS : Nat := 80000

/-- `\n[<name> - <title>]:\n<content>\n` — one serialized turn. -/
def turnBlock (t : Turn) : String :=
  "\n[" ++ agentName t.role ++ " - " ++ agentTitle t.role ++ "]:\n" ++
    t.content ++ "\n"

/-- The `for (const msg of history)` serialization loop. -/
def serializeHistory : List Turn → String
  | [] => ""
  | t :: ts => turnBlock t ++ serializeHistory ts

/-- The header kept in full: system context, task, conversation banner. -/
def ctxHeader (systemCtx task : String) : String :=
  systemCtx ++ "\n\nOriginal task: " ++ task ++
    "\n\n--- Team Conversation ---\n"

/-- The optional extra-instructions footer. -/
def ctxFooter : Option String → String
  | some note => "\n--- Additional Instructions ---\n" ++ note ++ "\n"
  | none => ""

/-- The naive full context. -/
def naiveContext (systemCtx task : String) (history : List Turn)
    (note : Option String) : String :=
  ctxHeader systemCtx task ++ serializeHistory history ++ ctxFooter note

/-- The one-line elision notice. -/
def elisionLine (skippedCount : Nat) (roles : List String) : String :=
  "\n[... " ++ toString skippedCount ++ " earlier messages from " ++
    joinWithSep ", " (firstDedup roles) ++ " omitted for brevity ...]\n"

/-- The index after the first Architect turn (`architectIdx + 1`), or 0 when
there is none (`middleStart` in the source). -/
def middleStartOf (history : List Turn) : Nat :=
  match history.findIdx? (fun h => h.role == AgentRole.architect) with
  | some i => i + 1
  | none => 0

/-- The retained first Architect turn (`keepFirst` in the source). -/
def keepFirstOf (history : List Turn) : List Turn :=
  match history.findIdx? (fun h => h.role == AgentRole.architect) with
  | some i => (history.get? i).toList
  | none => []

/-- The smart-truncation branch of `buildContext`: header, first Architect
turn, elision notice for the (non-empty) middle, last 3 turns, footer. -/
def truncatedContext (systemCtx task : String) (history : List Turn)
    (note : Option String) : String :=
  ctxHeader systemCtx task ++ serializeHistory (keepFirstOf history) ++
    (if middleStartOf history < history.length - 3 then
      elisionLine (history.length - 3 - middleStartOf history)
        (((history.drop (middleStartOf history)).take
            (history.length - 3 - middleStartOf history)).map
          (fun h => agentName h.role))
    else "") ++
    serializeHistory (history.drop (history.length - 3)) ++ ctxFooter note

/-- `buildContext` — the naive context if it fits the token budget;
otherwise the smart truncation. -/
def buildContext (systemCtx task : String) (history : List Turn)
    (note : Option String) : String :=
  if estimateTokens (naiveContext systemCtx task history note) ≤
      MAX_CONTEXT_TOKENS then
    naiveContext systemCtx task history note
  else truncatedContext systemCtx task history note

theorem length_mk (l : List Char) : (String.mk l).length = l.length := rfl

theorem length_data (s : String) : s.length = s.data.length := rfl

theorem length_append_str (a b : String) :
    (a ++ b).length = a.length + b.length := by
  rw [length_data, length_data, length_data, strData_append,
    List.length_append]

theorem content_le_turnBlock (t : Turn) :
    t.content.length ≤ (turnBlock t).length := by
  simp only [turnBlock, length_append_str]
  omega

/-- The oversized four-turn history of the C6 counterexample. -/
def bigContent : String := String.mk (List.replicate 100000 'a')

def c6Hist : List Turn :=
  [⟨.architect, bigContent⟩, ⟨.developer, bigContent⟩,
   ⟨.developer, bigContent⟩, ⟨.developer, bigContent⟩]

theorem bigContent_length : bigContent.length = 100000 := by
  rw [bigContent, length_mk, List.length_replicate]

theorem serialize_ge_sum (l : List Turn) :
    (l.map (fun t => t.content.length)).sum ≤ (serializeHistory l).length := by
  induction l with
  | nil => simp [serializeHistory]
  | cons t ts ih =>
    simp only [serializeHistory, List.map_cons, List.sum_cons,
      length_append_str]
    have := content_le_turnBlock t
    omega

theorem naive_ge_sum (sys task : String) (l : List Turn)
    (note : Option String) :
    (l.map (fun t => t.content.length)).sum ≤
      (naiveContext sys task l note).length := by
  simp only [naiveContext, length_append_str]
  have := serialize_ge_sum l
  omega

theorem estimateTokens_over (s : String) (h : 320001 ≤ s.length) :
    ¬ (estimateTokens s ≤ MAX_CONTEXT_TOKENS) := by
  unfold estimateTokens MAX_CONTEXT_TOKENS
  omega

theorem c6_over_budget :
    ¬ (estimateTokens (naiveContext "" "t" c6Hist none) ≤
        MAX_CONTEXT_TOKENS) := by
  refine estimateTokens_over _ ?_
  have h := naive_ge_sum "" "t" c6Hist none
  have hsum : (c6Hist.map (fun t => t.content.length)).sum = 400000 := by
    simp only [c6Hist, List.map_cons, List.map_nil, List.sum_cons,
      List.sum_nil, bigContent_length]
    norm_num
  rw [hsum] at h
  exact le_trans (by norm_num) h

theorem bigContent_countY : List.count 'y' bigContent.data = 0 := by
  rw [show bigContent.data = List.replicate 100000 'a' from rfl]
  rw [List.count_replicate]
  rw [if_neg (by decide)]

theorem turnBlock_countY (t : Turn)
    (h : List.count 'y' t.content.data = 0) :
    List.count 'y' (turnBlock t).data = 0 := by
  obtain ⟨role, content⟩ := t
  simp only [turnBlock, strData_append, List.count_append]
  simp only at h
  rw [h]
  cases role <;> decide

theorem serialize_countY (l : List Turn)
    (h : ∀ t ∈ l, List.count 'y' t.content.data = 0) :
    List.count 'y' (serializeHistory l).data = 0 := by
  induction l with
  | nil => decide
  | cons t ts ih =>
    simp only [serializeHistory, strData_append, List.count_append]
    rw [turnBlock_countY t (h t (by simp)),
      ih (fun x hx => h x (List.mem_cons_of_mem _ hx))]

/-- The `buildContext` output for the oversized four-turn history: header,
the first Architect turn, NO elision notice (the middle is empty), and the
last 3 turns. -/
theorem c6_build_eq :
    buildContext "" "t" c6Hist none =
      ctxHeader "" "t" ++
        serializeHistory [⟨AgentRole.architect, bigContent⟩] ++ "" ++
        serializeHistory [⟨AgentRole.developer, bigContent⟩,
          ⟨AgentRole.developer, bigContent⟩,
          ⟨AgentRole.developer, bigContent⟩] ++ ctxFooter none := by
  unfold buildContext
  rw [if_neg c6_over_budget]
  rfl

/-- C6 (counterexample): a four-turn history (Architect first) whose naive
context far exceeds the token budget, yet whose truncated output contains NO
elision marker — nothing lies between the first Architect turn and the last
3 turns, so no turns are omitted and no notice is emitted, contradicting the
claim that every over-budget history yields a marker. -/
theorem C6_context_truncation_counterexample :
    ¬ (estimateTokens (naiveContext "" "t" c6Hist none) ≤
        MAX_CONTEXT_TOKENS) ∧
    ¬ ("omitted for brevity".data <:+:
        (buildContext "" "t" c6Hist none).data) := by
  refine ⟨c6_over_budget, ?_⟩
  intro hinf
  have hs1 : List.count 'y'
      (serializeHistory [⟨AgentRole.architect, bigContent⟩]).data = 0 := by
    refine serialize_countY _ ?_
    intro t ht
    rcases List.mem_cons.mp ht with rfl | h0
    · exact bigContent_countY
    · cases h0
  have hs2 : List.count 'y'
      (serializeHistory [⟨AgentRole.developer, bigContent⟩,
        ⟨AgentRole.developer, bigContent⟩,
        ⟨AgentRole.developer, bigContent⟩]).data = 0 := by
    refine serialize_countY _ ?_
    intro t ht
    rcases List.mem_cons.mp ht with rfl | h0
    · exact bigContent_countY
    rcases List.mem_cons.mp h0 with rfl | h1
    · exact bigContent_countY
    rcases List.mem_cons.mp h1 with rfl | h2
    · exact bigContent_countY
    · cases h2
  have hcount : List.count 'y' (buildContext "" "t" c6Hist none).data = 0 := by
    rw [c6_build_eq]
    simp only [strData_append, List.count_append]
    rw [hs1, hs2]
    decide
  have hle := List.Sublist.count_le (List.IsInfix.sublist hinf) 'y'
  rw [hcount] at hle
  have hm : List.count 'y' "omitted for brevity".data = 1 := by decide
  omega

theorem content_infix_turnBlock (t : Turn) :
    t.content.data <:+: (turnBlock t).data :=
  ⟨("\n[" ++ agentName t.role ++ " - " ++ agentTitle t.role ++ "]:\n").data,
   "\n".data, by simp [turnBlock, strData_append, List.append_assoc]⟩

theorem turnBlock_infix_serialize {t : Turn} {l : List Turn} (h : t ∈ l) :
    (turnBlock t).data <:+: (serializeHistory l).data := by
  induction l with
  | nil => cases h
  | cons x xs ih =>
    rcases List.mem_cons.mp h with rfl | h
    · exact ⟨[], (serializeHistory xs).data,
        by simp [serializeHistory, strData_append]⟩
    · have := infix_app_left (a := (turnBlock x).data) (ih h)
      simpa [serializeHistory, strData_append] using this

/-- C6 (amended): when the naive serialized context fits the budget it is
returned verbatim; when it exceeds the budget the output contains the first
Architect turn's content and the contents of the last 3 turns verbatim, and
it contains the elision notice naming how many turns and which roles were
omitted exactly when at least one turn lies strictly between the first
Architect turn and the last 3 turns (for a history with no such middle
turns, no marker is emitted). -/
theorem C6_context_truncation_amended (systemCtx task : String)
    (history : List Turn) (note : Option String) :
    (estimateTokens (naiveContext systemCtx task history note) ≤
        MAX_CONTEXT_TOKENS →
      buildContext systemCtx task history note =
        naiveContext systemCtx task history note) ∧
    (¬ (estimateTokens (naiveContext systemCtx task history note) ≤
        MAX_CONTEXT_TOKENS) →
      (∀ i t, history.findIdx? (fun h => h.role == AgentRole.architect) =
          some i → history.get? i = some t →
        t.content.data <:+:
          (buildContext systemCtx task history note).data) ∧
      (∀ t ∈ history.drop (history.length - 3),
        t.content.data <:+:
          (buildContext systemCtx task history note).data) ∧
      (∀ i, history.findIdx? (fun h => h.role == AgentRole.architect) =
          some i → i + 1 < history.length - 3 →
        (elisionLine (history.length - 3 - (i + 1))
          (((history.drop (i + 1)).take (history.length - 3 - (i + 1))).map
            (fun h => agentName h.role))).data <:+:
          (buildContext systemCtx task history note).data)) := by
  constructor
  · intro h
    unfold buildContext
    exact if_pos h
  · intro hover
    have hbc : buildContext systemCtx task history note =
        truncatedContext systemCtx task history note := by
      unfold buildContext
      exact if_neg hover
    refine ⟨?_, ?_, ?_⟩
    · intro i t hidx hget
      rw [hbc]
      unfold truncatedContext
      have hkf : keepFirstOf history = [t] := by
        simp only [keepFirstOf, hidx, hget]
        rfl
      rw [hkf]
      simp only [strData_append, List.append_assoc]
      exact infix_app_left _ (infix_app_right _
        ((content_infix_turnBlock t).trans
          (turnBlock_infix_serialize (by simp))))
    · intro t ht
      rw [hbc]
      unfold truncatedContext
      simp only [strData_append, List.append_assoc]
      exact infix_app_left _ (infix_app_left _ (infix_app_left _
        (infix_app_right _
          ((content_infix_turnBlock t).trans
            (turnBlock_infix_serialize ht)))))
    · intro i hidx hmid
      rw [hbc]
      unfold truncatedContext
      have hms : middleStartOf history = i + 1 := by
        simp only [middleStartOf, hidx]
      rw [hms, if_pos hmid]
      simp only [strData_append, List.append_assoc]
      exact infix_app_left _ (infix_app_left _ (infix_app_right _
        (List.infix_refl _)))

/-- A 5-turn oversized history with one turn strictly between the Architect
turn and the last 3. -/
def c6HistB : List Turn :=
  [⟨.architect, bigContent⟩, ⟨.developer, bigContent⟩,
   ⟨.developer, bigContent⟩, ⟨.developer, bigContent⟩,
   ⟨.developer, bigContent⟩]

theorem c6B_over_budget :
    ¬ (estimateTokens (naiveContext "" "t" c6HistB none) ≤
        MAX_CONTEXT_TOKENS) := by
  refine estimateTokens_over _ ?_
  have h := naive_ge_sum "" "t" c6HistB none
  have hsum : (c6HistB.map (fun t => t.content.length)).sum = 500000 := by
    simp only [c6HistB, List.map_cons, List.map_nil, List.sum_cons,
      List.sum_nil, bigContent_length]
    norm_num
  rw [hsum] at h
  exact le_trans (by norm_num) h

/-- C6 (witness): the amended theorem on the two oversized histories — the
first Architect turn's content survives truncation, and the five-turn
history (which has a middle turn) also gets the elision notice. -/
theorem C6_context_truncation_witness :
    bigContent.data <:+: (buildContext "" "t" c6Hist none).data ∧
    (elisionLine (c6HistB.length - 3 - (0 + 1))
      (((c6HistB.drop (0 + 1)).take (c6HistB.length - 3 - (0 + 1))).map
        (fun h => agentName h.role))).data <:+:
      (buildContext "" "t" c6HistB none).data :=
  ⟨((C6_context_truncation_amended "" "t" c6Hist none).2 c6_over_budget).1
      0 ⟨.architect, bigContent⟩ (by decide) rfl,
   ((C6_context_truncation_amended "" "t" c6HistB none).2 c6B_over_budget).2.2
      0 (by decide) (by decide)⟩

/-! ### The Phase-3 execution/debug loop body (orchestrator.ts 1256–1525)

One iteration of the `while (!executionSuccess)` loop as a pure step
function over the orchestrator's mutable state, with the execution result
and the model responses of whichever branch runs supplied as oracles.
Filesystem writes, metrics counters, and the prompt strings (which only
feed the oracles) are not part of the evolving state. -/

/-- Test of `/(?:NEEDS?\s+REVISION|REVISIONS?\s+(?:NEEDED|REQUIRED|NECESSARY))/i`
at one position. -/
def tryNeedsRevAt (l : List Char) : Option Unit :=
  match (dropLitCi "need".data l).bind fun r =>
      let r1 := match r with
        | c :: t => if c.toLower == 's' then t else r
        | [] => r
      let ws := r1.takeWhile isSpaceChar
      if ws.isEmpty then none
      else (dropLitCi "revision".data (r1.drop ws.length)).map fun _ => () with
  | some u => some u
  | none =>
    (dropLitCi "revision".data l).bind fun r =>
      let r1 := match r with
        | c :: t => if c.toLower == 's' then t else r
        | [] => r
      let ws := r1.takeWhile isSpaceChar
      if ws.isEmpty then none
      else
        match dropLitCi "needed".data (r1.drop ws.length) with
        | some _ => some ()
        | none =>
          match dropLitCi "required".data (r1.drop ws.length) with
          | some _ => some ()
          | none =>
            (dropLitCi "necessary".data (r1.drop ws.length)).map fun _ => ()

/-- `verdictNeedsRevision` (orchestrator.ts 35–37). -/
def verdictNeedsRevision (text : String) : Bool :=
  anyPosMatch tryNeedsRevAt text.data

/-- `LANG_EXTENSIONS` (orchestrator.ts 127–149). -/
def LANG_EXTENSIONS : List (String × String) :=
  [("python", "py"), ("javascript", "js"), ("typescript", "ts"),
   ("go", "go"), ("rust", "rs"), ("java", "java"), ("cpp", "cpp"),
   ("c", "c"), ("ruby", "rb"), ("php", "php"), ("swift", "swift"),
   ("kotlin", "kt"), ("bash", "sh"), ("shell", "sh"), ("sql", "sql"),
   ("html", "html"), ("css", "css"), ("json", "json"), ("yaml", "yml"),
   ("toml", "toml"), ("plaintext", "txt")]

/-- `LANG_EXTENSIONS[language] || language || "txt"`. -/
def extFor (lang : String) : String :=
  match LANG_EXTENSIONS.find? (fun p => p.1 == lang) with
  | some p => p.2
  | none => if lang == "" then "txt" else lang

/-- The filename sanitization of `saveCodeBlocks`: backslashes to slashes,
leading dots/slashes stripped, a leading `output/` stripped, disallowed
characters replaced by `_`. -/
def sanitizeName (filename : String) : String :=
  let normalized := filename.data.map fun c => if c == '\\' then '/' else c
  let s1 := normalized.dropWhile fun c => c == '.' || c == '/' || c == '\\'
  let s2 :=
    if (s1.take 7).map Char.toLower == "output/".data then s1.drop 7 else s1
  String.mk (s2.map fun c =>
    if c.isAlphanum || c == '.' || c == '_' || c == '/' || c == '\\' ||
        c == '-' then c
    else '_')

/-- The relative path a block is saved under. -/
def savedName (blocksLen i : Nat) (block : CodeBlock) : String :=
  sanitizeName <|
    match block.filename with
    | some f => f
    | none =>
      if blocksLen == 1 then "main." ++ extFor block.language
      else "file_" ++ toString (i + 1) ++ "." ++ extFor block.language

/-- The list of saved relative paths (`saveCodeBlocks`' return value). -/
def savedNames (blocks : List CodeBlock) : List String :=
  blocks.enum.map fun p => savedName blocks.length p.1 p.2

def runnableExts : List String := [".py", ".js", ".ts"]

/-- `path.basename(f).toLowerCase()`. -/
def baseLower (f : String) : String :=
  String.mk (((f.data.reverse.takeWhile (fun c => c != '/')).reverse).map
    Char.toLower)

/-- Does the (lowercased) basename have a runnable extension? -/
def runnableBase (base : String) : Bool :=
  runnableExts.contains (extnameLower base)

/-- `/^main\.\w+$/` on the basename. -/
def isMainDotW (base : List Char) : Bool :=
  match dropLitCs "main.".data base with
  | some rest => !rest.isEmpty && rest.all isWordChar
  | none => false

/-- `/^(test_|tests_|utils|helpers|lib|config|__init__)/i` on the basename. -/
def skipStart (base : String) : Bool :=
  ["test_", "tests_", "utils", "helpers", "lib", "config", "__init__"].any
    fun p => p.data.isPrefixOf base.data

/-- `findMainFile` (orchestrator.ts 607–640): exact `main.*`, then a name
containing `main`, then the first non-test/util/init runnable file, then the
first runnable non-`__init__` file. -/
def findMainFile (savedFiles : List String) : Option String :=
  match savedFiles.find? fun f =>
      isMainDotW (baseLower f).data && runnableBase (baseLower f) with
  | some f => some f
  | none =>
    match savedFiles.find? fun f =>
        containsS "main" (baseLower f) && runnableBase (baseLower f) with
    | some f => some f
    | none =>
      match savedFiles.find? fun f =>
          !(skipStart (baseLower f)) && !(containsS "__init__" f) &&
            runnableBase (baseLower f) with
      | some f => some f
      | none =>
        savedFiles.find? fun f =>
          !("__init__".data.isPrefixOf (baseLower f).data) &&
            runnableBase (baseLower f)

/-- The orchestrator's mutable state entering a Phase-3 iteration. -/
structure P3State where
  history : List Turn
  errorLog : List ErrorRecord
  latestCode : String
  architectPlan : String
  lastReview : String
  executionAttempt : Nat
  rearchitectCount : Nat
  cycle : Nat
deriving DecidableEq, Repr

/-- The oracle inputs of one iteration: the execution result and the agent
responses of whichever branch runs (the Debugger's diagnosis feeds only the
prompts, not the state). -/
structure P3Inputs where
  execSuccess : Bool
  execOutput : String
  execError : String
  archResp : String
  rewriteResp : String
  reviewResp : String
  fixResp : String
  debugFixResp : String
  tier2ReviewResp : String
  tier2FixResp : String
deriving DecidableEq, Repr

/-- How the iteration ended. -/
inductive P3Exit where
  | noCode
  | done
  | looping
deriving DecidableEq, Repr

/-- `result.error || result.output`. -/
def rawErrorOf (inp : P3Inputs) : String :=
  if inp.execError == "" then inp.execOutput else inp.execError

/-- The record pushed onto the error log for this failure. -/
def failRecord (s : P3State) (inp : P3Inputs) : ErrorRecord :=
  ⟨getErrorSignature (rawErrorOf inp), rawErrorOf inp,
   s.executionAttempt + 1⟩

/-- Tier 3: Architect redesigns, Developer rewrites (one fix round if the
Reviewer objects), and the history is reseeded with exactly the three new
turns; the error log is the already-extended log, untouched. -/
def rearchStep (s : P3State) (log : List ErrorRecord) (attempt cyc : Nat)
    (inp : P3Inputs) : P3State :=
  { history := [⟨.architect, inp.archResp⟩,
      ⟨.developer, if verdictNeedsRevision inp.reviewResp then inp.fixResp
        else inp.rewriteResp⟩,
      ⟨.reviewer, inp.reviewResp⟩]
    errorLog := log
    latestCode := (if verdictNeedsRevision inp.reviewResp then inp.fixResp
      else inp.rewriteResp)
    architectPlan := inp.archResp
    lastReview := inp.reviewResp
    executionAttempt := attempt
    rearchitectCount := s.rearchitectCount + 1
    cycle := cyc }

/-- Tiers 1–2: Debugger + Developer fix (and for tier 2 a Reviewer pass with
one inline fix round); the conversation history is not touched. -/
def debugStep (s : P3State) (log : List ErrorRecord) (attempt cyc tier : Nat)
    (inp : P3Inputs) : P3State :=
  if tier ≥ 2 then
    { s with
      errorLog := log
      latestCode := (if verdictNeedsRevision inp.tier2ReviewResp then
        inp.tier2FixResp else inp.debugFixResp)
      lastReview := inp.tier2ReviewResp
      executionAttempt := attempt
      cycle := cyc }
  else
    { s with
      errorLog := log
      latestCode := inp.debugFixResp
      executionAttempt := attempt
      cycle := cyc }

/-- The failure path of one iteration: push the error record, compute the
tier from the extended log, and run the matching repair branch. -/
def failStep (s : P3State) (inp : P3Inputs) : P3State :=
  if getEscalationTier (s.errorLog ++ [failRecord s inp])
      (s.executionAttempt + 1) == 3 then
    rearchStep s (s.errorLog ++ [failRecord s inp]) (s.executionAttempt + 1)
      (s.cycle + 1) inp
  else
    debugStep s (s.errorLog ++ [failRecord s inp]) (s.executionAttempt + 1)
      (s.cycle + 1)
      (getEscalationTier (s.errorLog ++ [failRecord s inp])
        (s.executionAttempt + 1)) inp

/-- One iteration of the Phase-3 loop: save the extracted blocks (breaking
out when there are none or no runnable main file exists), execute, and on
failure escalate. -/
def phase3Step (s : P3State) (inp : P3Inputs) : P3State × P3Exit :=
  if (extractCodeBlocks s.latestCode).isEmpty then (s, .noCode)
  else
    match findMainFile (savedNames (extractCodeBlocks s.latestCode)) with
    | none => (s, .noCode)
    | some _ =>
      if inp.execSuccess then (s, .done)
      else (failStep s inp, .looping)

theorem failStep_errorLog (s : P3State) (inp : P3Inputs) :
    (failStep s inp).errorLog = s.errorLog ++ [failRecord s inp] := by
  unfold failStep
  split
  · rfl
  · unfold debugStep
    split <;> rfl

/-- C3: across one Phase-3 iteration the error log is only ever extended —
it is either unchanged (success or nothing to execute) or gets exactly one
appended record (failure); and every tier-3 re-architecture (the only step
that increments `rearchitectCount`) reseeds the conversation history with
exactly the three new Architect, Developer, and Reviewer turns while the
error log keeps its old records (old log followed by the one new record). -/
theorem C3_error_log_append_only (s : P3State) (inp : P3Inputs) :
    s.errorLog <+: (phase3Step s inp).1.errorLog ∧
    ((phase3Step s inp).1.errorLog = s.errorLog ∨
      ∃ r, (phase3Step s inp).1.errorLog = s.errorLog ++ [r]) ∧
    ((phase3Step s inp).1.rearchitectCount ≠ s.rearchitectCount →
      (∃ r, (phase3Step s inp).1.errorLog = s.errorLog ++ [r]) ∧
      ∃ p c rv, (phase3Step s inp).1.history =
        [⟨.architect, p⟩, ⟨.developer, c⟩, ⟨.reviewer, rv⟩]) := by
  unfold phase3Step
  split
  · exact ⟨List.prefix_refl _, Or.inl rfl, fun h => absurd rfl h⟩
  · split
    · exact ⟨List.prefix_refl _, Or.inl rfl, fun h => absurd rfl h⟩
    · split
      · exact ⟨List.prefix_refl _, Or.inl rfl, fun h => absurd rfl h⟩
      · refine ⟨?_, Or.inr ⟨failRecord s inp, failStep_errorLog s inp⟩, ?_⟩
        · rw [failStep_errorLog]
          exact ⟨[failRecord s inp], rfl⟩
        · intro hne
          unfold failStep at hne ⊢
          split at hne
          · rename_i hcond
            rw [if_pos hcond]
            refine ⟨⟨failRecord s inp, rfl⟩, ?_⟩
            exact ⟨inp.archResp,
              (if verdictNeedsRevision inp.reviewResp then inp.fixResp
                else inp.rewriteResp), inp.reviewResp, rfl⟩
          · exfalso
            apply hne
            unfold debugStep
            split <;> rfl

/-- Witness state: 14 identical prior failures (non-thrashing), so the next
failure is attempt 15 and triggers tier-3 re-architecture. -/
def c3State : P3State :=
  { history := []
    errorLog := List.replicate 14 ⟨"E", "E", 1⟩
    latestCode := "```python\nprint(1)\n```"
    architectPlan := ""
    lastReview := ""
    executionAttempt := 14
    rearchitectCount := 0
    cycle := 0 }

def c3Inputs : P3Inputs :=
  { execSuccess := false
    execOutput := ""
    execError := "ValueError: x"
    archResp := "plan"
    rewriteResp := "code"
    reviewResp := "LGTM"
    fixResp := "fix"
    debugFixResp := "dfix"
    tier2ReviewResp := "ok"
    tier2FixResp := "tfix" }

/-- C3 (witness): the append-only theorem applied to a concrete tier-3
iteration. -/
theorem C3_error_log_append_only_witness :
    (phase3Step c3State c3Inputs).1.rearchitectCount ≠
      c3State.rearchitectCount ∧
    (∃ r, (phase3Step c3State c3Inputs).1.errorLog =
      c3State.errorLog ++ [r]) ∧
    ∃ p c rv, (phase3Step c3State c3Inputs).1.history =
      [⟨.architect, p⟩, ⟨.developer, c⟩, ⟨.reviewer, rv⟩] :=
  ⟨by decide,
   ((C3_error_log_append_only c3State c3Inputs).2.2 (by decide)).1,
   ((C3_error_log_append_only c3State c3Inputs).2.2 (by decide)).2⟩
